import Mathlib

/-!
Verification of the Silver validation/standardization engine and the Gold
fact-load join policy of the ShopZada warehouse pipeline
(`scripts/silver/modded_silverval.py`, `scripts/gold/modded_goldload.py`).

Shallow embedding conventions:
* A pandas `DataFrame` is a `DF`: an ordered list of column names plus an
  ordered list of rows, each row an aligned list of cells.
* A cell is `Option Val` where `Val` is a string or an integer; `none` models
  a null (`None`/`NaN`).  Numeric values are modelled as integers.
* The process-wide mutable state (`quality_report`, the line-item buffer and
  the silver output folder) is an explicit `SilverState` threaded through the
  cleaners; `df.to_parquet(path)` appends `(fileName, df)` to the output list
  and reads from the silver folder look the name up there.
* Exceptions are modelled at the file-read boundary (`Except String DF`);
  the embedded cleaners themselves are total functions.
* `pd.to_datetime` is approximated by an ISO `yyyy-mm-dd` recogniser and
  `pd.to_numeric` by (signed) decimal-integer parsing; no claim under
  verification depends on the precise parse set.
-/

namespace ShopZada

/-- A cell value: the sources' data are strings or integers. -/
inductive Val where
  | str (s : String)
  | int (n : Int)
deriving DecidableEq, Repr

/-- A cell: `none` models a pandas null (`None` / `NaN`). -/
abbrev Cell := Option Val

/-- `str(v)` as pandas' `astype(str)` renders a cell value. -/
def Val.toStr : Val → String
  | .str s => s
  | .int n => toString n

/-- A DataFrame: ordered column names and rows of cells aligned with them. -/
structure DF where
  cols : List String
  rows : List (List Cell)
deriving DecidableEq, Repr

/-- Well-formedness: every row has exactly one cell per column. -/
def DF.WF (df : DF) : Prop :=
  ∀ r ∈ df.rows, r.length = df.cols.length

instance (df : DF) : Decidable df.WF := by
  unfold DF.WF; infer_instance

/-- Index of a column name in the header, if present. -/
def DF.colIdx (df : DF) (c : String) : Option Nat :=
  df.cols.findIdx? (· == c)

/-- `c in df.columns`. -/
def DF.hasCol (df : DF) (c : String) : Bool :=
  df.cols.contains c

/-- The cell of row `r` in column `c` (null when the column is absent). -/
def DF.cell (df : DF) (r : List Cell) (c : String) : Cell :=
  match df.colIdx c with
  | some i => r.getD i none
  | none => none

/-- The column `df[c]` as a list of cells. -/
def DF.colVals (df : DF) (c : String) : List Cell :=
  df.rows.map (fun r => df.cell r c)

/-- `df[c] = vals`: overwrite the column in place, or append a new one. -/
def DF.setCol (df : DF) (c : String) (vals : List Cell) : DF :=
  match df.colIdx c with
  | some i => { df with rows := df.rows.zipWith (fun r v => r.set i v) vals }
  | none =>
      { cols := df.cols ++ [c],
        rows := df.rows.zipWith (fun r v => r ++ [v]) vals }

/-- `df.rename(columns=m)` for an association-list rename map. -/
def DF.renameCols (df : DF) (m : List (String × String)) : DF :=
  { df with
    cols := df.cols.map (fun c =>
      match m.find? (fun p => p.1 == c) with
      | some p => p.2
      | none => c) }

/-- `df.dropna(subset=keys)`: keep rows with no null in any listed column. -/
def DF.dropna (df : DF) (keys : List String) : DF :=
  { df with rows := df.rows.filter (fun r => keys.all (fun c => df.cell r c ≠ none)) }

/-- The tuple of key-column cells of a row. -/
def DF.keyOf (df : DF) (keys : List String) (r : List Cell) : List Cell :=
  keys.map (df.cell r)

/-- Keep each row whose key tuple has not been seen before (`keep="first"`). -/
def keepFirsts (key : List Cell → List Cell) :
    List (List Cell) → List (List Cell) → List (List Cell)
  | _, [] => []
  | seen, r :: rs =>
      if (key r) ∈ seen then keepFirsts key seen rs
      else r :: keepFirsts key (key r :: seen) rs

/-- `df.drop_duplicates(subset=keys, keep="first")`. -/
def DF.dropDupsBy (df : DF) (keys : List String) : DF :=
  { df with rows := keepFirsts (df.keyOf keys) [] df.rows }

/-- `df.drop_duplicates()` (full-row deduplication). -/
def DF.dropDupsAll (df : DF) : DF :=
  { df with rows := keepFirsts id [] df.rows }

/-- Rows whose key tuple already occurred earlier (`df.duplicated(subset).sum()`). -/
def countDups (key : List Cell → List Cell) :
    List (List Cell) → List (List Cell) → Nat
  | _, [] => 0
  | seen, r :: rs =>
      (if (key r) ∈ seen then 1 else 0) + countDups key (key r :: seen) rs

/-- `df[cs]`: projection onto the listed columns, in the listed order. -/
def DF.select (df : DF) (cs : List String) : DF :=
  { cols := cs, rows := df.rows.map (fun r => cs.map (df.cell r)) }

/-- `l.merge(r, on=key, how="left")`: every left row paired with each
matching right row, or padded with nulls when no right row matches.  The
key column is kept once, from the left side; the merges in the sources
never have other overlapping column names, so suffixing is not modelled. -/
def leftJoin (l r : DF) (key : String) : DF :=
  let rightCols := r.cols.filter (fun c => c ≠ key)
  { cols := l.cols ++ rightCols,
    rows := l.rows.flatMap (fun lr =>
      let k := l.cell lr key
      let ms := r.rows.filter (fun rr => r.cell rr key = k)
      if ms.isEmpty then [lr ++ rightCols.map (fun _ => none)]
      else ms.map (fun rr => lr ++ rightCols.map (r.cell rr))) }

end ShopZada

namespace ShopZada

/-! ### String utilities mirroring the Python string methods -/

/-- Python whitespace for `str.strip` (ASCII subset). -/
def isPyWsN (n : Nat) : Bool :=
  n = 32 || n = 9 || n = 10 || n = 13 || n = 11 || n = 12

/-- Python whitespace test on a character (by its scalar value). -/
def isPyWs (c : Char) : Bool :=
  isPyWsN c.toNat

/-- `str.strip()` on a character list. -/
def pyStrip (l : List Char) : List Char :=
  ((l.dropWhile isPyWs).reverse.dropWhile isPyWs).reverse

/-- `str.lower()` character-wise (ASCII letters, as in `Char.toLower`). -/
def pyLowerChar (c : Char) : Char :=
  if 65 ≤ c.toNat ∧ c.toNat ≤ 90 then Char.ofNat (c.toNat + 32) else c

/-- `.str.replace(" ", "_").str.replace("-", "_")` character-wise. -/
def underscoreChar (c : Char) : Char :=
  if c = ' ' || c = '-' then '_' else c

/-- The column-name normalisation of `standardize`:
strip, lower-case, then replace spaces and hyphens with underscores. -/
def stdName (s : String) : String :=
  ⟨((pyStrip s.data).map pyLowerChar).map underscoreChar⟩

/-- `standardize(df)`: normalise all column names. -/
def standardize (df : DF) : DF :=
  { df with cols := df.cols.map stdName }

/-- `pat in s` (Python substring containment). -/
def strContains (s pat : String) : Bool :=
  s.data.tails.any (fun t => pat.data.isPrefixOf t)

/-- One fuel-indexed pass of `str.replace(pat, rep)`, left to right,
non-overlapping; the fuel is an upper bound on the list length. -/
def replaceAllAux (pat rep : List Char) : Nat → List Char → List Char
  | _, [] => []
  | 0, l => l
  | n + 1, c :: cs =>
      if pat ≠ [] ∧ pat.isPrefixOf (c :: cs) then
        rep ++ replaceAllAux pat rep n ((c :: cs).drop pat.length)
      else
        c :: replaceAllAux pat rep n cs

/-- `s.replace(pat, rep)` for a non-empty pattern. -/
def pyReplace (s pat rep : String) : String :=
  ⟨replaceAllAux pat.data rep.data s.data.length s.data⟩

/-- First maximal digit run in a list (`re.search(r"(\d+)", s)`). -/
def firstDigitRun : List Char → Option (List Char)
  | [] => none
  | c :: cs =>
      if c.isDigit then some (c :: cs.takeWhile Char.isDigit)
      else firstDigitRun cs

/-- Numeric value of a digit list. -/
def digitsToNat (l : List Char) : Nat :=
  l.foldl (fun acc c => 10 * acc + (c.toNat - 48)) 0

/-- `pd.to_numeric(errors="coerce")` on one cell, modelled for integers. -/
def pyToNumeric (c : Cell) : Cell :=
  match c with
  | none => none
  | some (.int n) => some (.int n)
  | some (.str s) =>
      match s.data with
      | [] => none
      | '-' :: ds => if ds ≠ [] ∧ ds.all Char.isDigit
                     then some (.int (-(digitsToNat ds : Int))) else none
      | ds => if ds.all Char.isDigit then some (.int (digitsToNat ds)) else none

/-- `pd.to_datetime(errors="coerce")` on one cell, approximated by an ISO
`yyyy-mm-dd` prefix recogniser (integers pass through as epoch stamps). -/
def pyToDatetime (c : Cell) : Cell :=
  match c with
  | none => none
  | some (.int n) => some (.int n)
  | some (.str s) =>
      match s.data with
      | y1 :: y2 :: y3 :: y4 :: '-' :: m1 :: m2 :: '-' :: d1 :: d2 :: _ =>
          if [y1, y2, y3, y4, m1, m2, d1, d2].all Char.isDigit
          then some (.str s) else none
      | _ => none

end ShopZada

namespace ShopZada

/-! ### Quality log (`log_quality` / `quality_report`) -/

/-- Structured rendering of the `details` f-string of each `log_quality` call.
For `NULL_VALUES` the displayed percentage is `100 * nullCount / total`
formatted to one decimal place, so the two counts determine it. -/
inductive IssueDetails where
  | missingColumns (missing : List String)
  | nullValues (col : String) (nullCount total : Nat)
  | duplicates (dupCount : Nat) (keyCols : List String)
  | invalidDatetime (col : String) (invalid : Nat)
  | invalidNumeric (col : String) (invalid : Nat)
  | processingError (msg : String)
  | productDimLoadError (msg : String)
deriving DecidableEq, Repr

/-- One `quality_report` entry (timestamp omitted: wall-clock only). -/
structure QIssue where
  table : String
  issue_type : String
  details : IssueDetails
  severity : String
deriving DecidableEq, Repr

/-- The `details` percentage of a `NULL_VALUES` entry before the `.1f`
formatting, as an exact rational. -/
def nullPct (nullCount total : Nat) : ℚ :=
  ((nullCount : ℚ) / (total : ℚ)) * 100

/-- A rational rounded to one decimal place (the `.1f` display value). -/
def roundToTenths (q : ℚ) : ℚ :=
  (round (q * 10) : ℚ) / 10

/-! ### Validators -/

/-- `validate_required_columns`: returns the issues it logs (the record set
itself is returned unchanged by the source, so it is not repeated here). -/
def validate_required_columns (df : DF) (required_cols : List String)
    (table_name : String) : List QIssue :=
  let missing := required_cols.filter (fun c => ¬ df.hasCol c)
  if missing ≠ [] then
    [⟨table_name, "MISSING_COLUMNS", .missingColumns missing, "ERROR"⟩]
  else []

/-- Null count of a column: `df[col].isnull().sum()`. -/
def DF.nullCount (df : DF) (col : String) : Nat :=
  (df.colVals col).countP (· = none)

/-- `check_nulls`: one WARNING per present key column with at least one null. -/
def check_nulls (df : DF) (key_cols : List String)
    (table_name : String) : List QIssue :=
  key_cols.flatMap (fun col =>
    if df.hasCol col then
      let null_count := df.nullCount col
      let total := df.rows.length
      if null_count > 0 then
        [⟨table_name, "NULL_VALUES", .nullValues col null_count total, "WARNING"⟩]
      else []
    else [])

/-- `check_duplicates`: the duplicate-row count on the key columns plus the
issues logged (0 and nothing when some key column is absent). -/
def check_duplicates (df : DF) (key_cols : List String)
    (table_name : String) : Nat × List QIssue :=
  if ¬ key_cols.all (fun c => df.hasCol c) then (0, [])
  else
    let dup_count := countDups (df.keyOf key_cols) [] df.rows
    if dup_count > 0 then
      (dup_count,
       [⟨table_name, "DUPLICATES", .duplicates dup_count key_cols, "WARNING"⟩])
    else (dup_count, [])

/-- `validate_data_types`: coerce listed columns, logging newly-null counts. -/
def validate_data_types (df : DF) (type_map : List (String × String))
    (table_name : String) : DF × List QIssue :=
  type_map.foldl
    (fun (acc : DF × List QIssue) p =>
      let (df, issues) := acc
      let (col, expected_type) := p
      if ¬ df.hasCol col then (df, issues)
      else if expected_type = "datetime" then
        let before := (df.colVals col).countP (· ≠ none)
        let df' := df.setCol col ((df.colVals col).map pyToDatetime)
        let after := (df'.colVals col).countP (· ≠ none)
        let invalid := before - after
        (df',
         issues ++
           (if invalid > 0 then
             [⟨table_name, "INVALID_DATETIME", .invalidDatetime col invalid,
               "WARNING"⟩]
           else []))
      else if expected_type = "numeric" then
        let before := (df.colVals col).countP (· ≠ none)
        let df' := df.setCol col ((df.colVals col).map pyToNumeric)
        let after := (df'.colVals col).countP (· ≠ none)
        let invalid := before - after
        (df',
         issues ++
           (if invalid > 0 then
             [⟨table_name, "INVALID_NUMERIC", .invalidNumeric col invalid,
               "WARNING"⟩]
           else []))
      else (df, issues))
    (df, [])

/-- `flag_errors`: counts ERROR entries for a table (print-only diagnostic). -/
def flag_errors (log : List QIssue) (table_name : String) : Nat :=
  (log.filter (fun r => r.table = table_name ∧ r.severity = "ERROR")).length

end ShopZada

namespace ShopZada

/-! ### Key synthesis helpers -/

/-- Lexicographic order on character lists by code point (Python's string
comparison). -/
def listLe : List Char → List Char → Bool
  | [], _ => true
  | _ :: _, [] => false
  | a :: as, b :: bs =>
      if a.toNat < b.toNat then true
      else if b.toNat < a.toNat then false
      else listLe as bs

/-- Comparison used by pandas when sorting category levels (strings
lexicographically, integers numerically; columns never mix the two in
practice, integers are ordered before strings for totality). -/
def Val.leB : Val → Val → Bool
  | .int m, .int n => m ≤ n
  | .str a, .str b => listLe a.data b.data
  | .int _, .str _ => true
  | .str _, .int _ => false

/-- Insertion into a sorted list (ascending by `Val.leB`). -/
def insertVal (v : Val) : List Val → List Val
  | [] => [v]
  | w :: ws => if v.leB w then v :: w :: ws else w :: insertVal v ws

/-- Insertion sort by `Val.leB`. -/
def sortVals (l : List Val) : List Val :=
  l.foldr insertVal []

/-- Index of the first occurrence of `v` (length when absent). -/
def idxIn (v : Val) : List Val → Nat
  | [] => 0
  | w :: ws => if w = v then 0 else idxIn v ws + 1

/-- `series.astype("category").cat.codes`: category levels are the distinct
non-null values in sorted order; each cell maps to its level index and a
null maps to `-1`. -/
def catCodes (cells : List Cell) : List Int :=
  let cats := sortVals (cells.filterMap id).dedup
  cells.map (fun c =>
    match c with
    | none => -1
    | some v => (idxIn v cats : Int))

/-- `df.reset_index().index`: the zero-based row positions. -/
def positions (n : Nat) : List Int :=
  (List.range n).map Int.ofNat

/-! ### `normalize_discount_label` -/

/-- `normalize_discount_label`: strip/lower, rewrite `percent`/`pct` to `%`,
strip every character that is not a digit or `%`, then rebuild `"<int>%"`
from the first digit run; `None` when nothing parseable remains. -/
def normalize_discount_label (c : Cell) : Option String :=
  match c with
  | none => none
  | some v =>
      let s0 : String := ⟨(pyStrip v.toStr.data).map pyLowerChar⟩
      let s1 := pyReplace (pyReplace s0 "percent" "%") "pct" "%"
      let s2 : List Char := s1.data.filter (fun ch => ch.isDigit || ch = '%')
      if s2 = [] then none
      else
        match firstDigitRun s2 with
        | none => none
        | some ds => some (⟨ds⟩ ++ "%")

/-! ### `clean_quantity_column` -/

/-- A column has numeric dtype when every value present is numeric (a parquet
integer column; the all-null column is treated as numeric `float64`). -/
def isNumericCol (cells : List Cell) : Bool :=
  cells.all (fun c => match c with
    | none => true
    | some (.int _) => true
    | some (.str _) => false)

/-- `astype(str).str.extract(r"(\d+)")` then `to_numeric` on one cell. -/
def extractQty (c : Cell) : Cell :=
  match c with
  | none => none
  | some v =>
      match firstDigitRun v.toStr.data with
      | none => none
      | some ds => some (.int (digitsToNat ds))

/-- The quantity alias columns probed by the source, in order. -/
def quantityAliases : List String :=
  ["qty", "quantity_purchased", "order_quantity", "item_quantity"]

/-- Copy the first present alias column into `quantity` when absent. -/
def aliasQuantity (df : DF) : DF :=
  if df.hasCol "quantity" then df
  else
    match quantityAliases.find? (fun a => df.hasCol a) with
    | some a => df.setCol "quantity" (df.colVals a)
    | none => df

/-- `clean_quantity_column`. -/
def clean_quantity_column (df : DF) : DF :=
  let df := aliasQuantity df
  if ¬ df.hasCol "quantity" then
    df.setCol "quantity" (df.rows.map (fun _ => none))
  else if isNumericCol (df.colVals "quantity") then
    df.setCol "quantity" ((df.colVals "quantity").map pyToNumeric)
  else
    df.setCol "quantity" ((df.colVals "quantity").map extractQty)

end ShopZada

namespace ShopZada

/-! ### Pipeline state: quality report, line-item buffer, silver folder -/

/-- The process-wide mutable state of one Silver run: the quality report,
the `operations_line_items_buffer`, and the silver output folder (a list of
`(file name, DataFrame)` writes, later writes shadowing earlier ones). -/
structure SilverState where
  log : List QIssue
  buffer : List DF
  outputs : List (String × DF)
deriving DecidableEq, Repr

/-- The state at the start of a run (both accumulators empty). -/
def initState : SilverState := ⟨[], [], []⟩

/-- Read back a persisted silver file by name (last write wins). -/
def SilverState.readOutput (st : SilverState) (name : String) : Option DF :=
  (st.outputs.reverse.find? (fun p => p.1 == name)).map (·.2)

/-- `df.to_parquet(os.path.join(silver_folder, name))`. -/
def SilverState.write (st : SilverState) (name : String) (df : DF) : SilverState :=
  { st with outputs := st.outputs ++ [(name, df)] }

/-- Append issues to the quality report. -/
def SilverState.logAll (st : SilverState) (issues : List QIssue) : SilverState :=
  { st with log := st.log ++ issues }

end ShopZada

namespace ShopZada

/-! ### Department cleaners -/

/-- `clean_business`. -/
def clean_business (df0 : DF) (_file : String) (st : SilverState) : SilverState :=
  let table_name := "business_product"
  let df := standardize df0
  let st := st.logAll
    (validate_required_columns df ["product_id", "product_name"] table_name)
  let st := st.logAll (check_nulls df ["product_id"] table_name)
  let df :=
    if df.hasCol "product_id" then
      (df.dropna ["product_id"]).dropDupsBy ["product_id"]
    else df
  let st := st.logAll (check_duplicates df ["product_id"] table_name).2
  st.write "business_product.parquet" df

/-- `clean_customer`. -/
def clean_customer (df0 : DF) (file : String) (st : SilverState) : SilverState :=
  let df := standardize df0
  let sel : Option (String × String × List String) :=
    if strContains file "user_job" then
      some ("customer_user_job", "customer_user_job.parquet", ["user_id"])
    else if strContains file "user_credit_card" then
      some ("customer_user_credit_card", "customer_user_credit_card.parquet",
            ["user_id", "credit_card_number"])
    else if strContains file "user_data" || strContains file "user_" then
      some ("customer_user", "customer_user.parquet", ["user_id"])
    else none
  match sel with
  | none => st
  | some (table_name, out, key_cols) =>
    let st := st.logAll (validate_required_columns df ["user_id"] table_name)
    let st := st.logAll (check_nulls df ["user_id"] table_name)
    let df :=
      if df.hasCol "user_id" then
        let subset_keys :=
          if table_name = "customer_user" ∨ table_name = "customer_user_job"
          then ["user_id"] else key_cols
        (df.dropna ["user_id"]).dropDupsBy subset_keys
      else df
    let st := st.logAll (check_duplicates df key_cols table_name).2
    let p :=
      if df.hasCol "birthdate" ∧ table_name = "customer_user" then
        validate_data_types df [("birthdate", "datetime")] table_name
      else (df, [])
    let df := p.1
    let st := st.logAll p.2
    st.write out df

/-- `clean_enterprise`. -/
def clean_enterprise (df0 : DF) (file : String) (st : SilverState) : SilverState :=
  let df := standardize df0
  if strContains file "order_with_merchant" then
    let table_name := "enterprise_order_merchant_tx"
    let df := df.renameCols
      ((if df.hasCol "merchantid" then [("merchantid", "merchant_id")] else []) ++
       (if df.hasCol "staffid" then [("staffid", "staff_id")] else []) ++
       (if df.hasCol "orderid" then [("orderid", "order_id")] else []))
    let key_cols := ["order_id", "merchant_id"]
    let st := st.logAll (validate_required_columns df key_cols table_name)
    let st := st.logAll (check_nulls df key_cols table_name)
    let df :=
      if df.hasCol "order_id" then
        (df.dropna ["order_id"]).dropDupsBy ["order_id"]
      else df
    let st := st.logAll (check_duplicates df ["order_id"] table_name).2
    let base_name := pyReplace (pyReplace file ".parquet" "") "enterprise_" ""
    st.write ("enterprise_" ++ base_name ++ "_tx.parquet") df
  else if strContains file "merchant_data" then
    enterpriseDim df "enterprise_merchant" "enterprise_merchant.parquet"
      ["merchant_id"] st
  else if strContains file "staff_data" then
    enterpriseDim df "enterprise_staff" "enterprise_staff.parquet"
      ["staff_id"] st
  else st
where
  /-- The shared dimension tail of `clean_enterprise`. -/
  enterpriseDim (df : DF) (table_name out : String) (key_cols : List String)
      (st : SilverState) : SilverState :=
    let st := st.logAll (validate_required_columns df key_cols table_name)
    let st := st.logAll (check_nulls df key_cols table_name)
    let df :=
      if df.hasCol (key_cols.headD "") then
        (df.dropna key_cols).dropDupsBy key_cols
      else df
    let st := st.logAll (check_duplicates df key_cols table_name).2
    st.write out df

/-- `_rename_operations_columns`. -/
def rename_operations_columns (df : DF) : DF :=
  df.renameCols
    ((if df.hasCol "orderid" ∧ ¬ df.hasCol "order_id"
      then [("orderid", "order_id")] else []) ++
     (if df.hasCol "productid" ∧ ¬ df.hasCol "product_id"
      then [("productid", "product_id")] else []) ++
     (if df.hasCol "prod_id" ∧ ¬ df.hasCol "product_id"
      then [("prod_id", "product_id")] else []) ++
     (if df.hasCol "sku" ∧ ¬ df.hasCol "product_id"
      then [("sku", "product_id")] else []) ++
     (if df.hasCol "item_id" ∧ ¬ df.hasCol "product_id"
      then [("item_id", "product_id")] else []) ++
     (if df.hasCol "userid" ∧ ¬ df.hasCol "user_id"
      then [("userid", "user_id")] else []))

/-- `astype(str)` on one cell (pandas renders a null as `"nan"`). -/
def astypeStr (c : Cell) : String :=
  match c with
  | none => "nan"
  | some v => v.toStr

/-- The tail of the line-item branch of `clean_operations` after `product_id`
resolution: quantity cleaning, validations, key dropna/dedupe, buffering. -/
def lineItemsFinish (df0 : DF) (st : SilverState) : SilverState :=
  let table_name := "operations_line_items"
  let key_cols := ["order_id", "product_id"]
  let df := clean_quantity_column df0
  let st := st.logAll (validate_required_columns df key_cols table_name)
  let st := st.logAll (check_nulls df key_cols table_name)
  let df :=
    if key_cols.all (fun c => df.hasCol c) then
      (df.dropna key_cols).dropDupsBy key_cols
    else df
  let st := st.logAll (check_duplicates df key_cols table_name).2
  { st with buffer := st.buffer ++ [df] }

/-- `clean_operations`. -/
def clean_operations (df0 : DF) (file : String) (st : SilverState) : SilverState :=
  let df := rename_operations_columns (standardize df0)
  if strContains file "order_data" then
    let table_name := "operations_orders"
    let key_cols := ["order_id"]
    let st := st.logAll (validate_required_columns df key_cols table_name)
    let st := st.logAll (check_nulls df key_cols table_name)
    let df := if df.hasCol "order_id" then df.dropna ["order_id"] else df
    let date_cols := df.cols.filter (fun c => strContains c "date")
    let p := validate_data_types df (date_cols.map (fun c => (c, "datetime")))
      table_name
    let df := p.1
    let st := st.logAll p.2
    let st := st.logAll (check_duplicates df key_cols table_name).2
    st.write "operations_orders.parquet" df
  else if strContains file "line_item" then
    let table_name := "operations_line_items"
    let df :=
      if ¬ df.hasCol "quantity" then
        match quantityAliases.find? (fun a => df.hasCol a) with
        | some a => df.setCol "quantity" (df.colVals a)
        | none => df
      else df
    let df :=
      if ¬ df.hasCol "price" ∧ df.hasCol "unit_price" then
        df.setCol "price" (df.colVals "unit_price")
      else df
    let df :=
      if ¬ df.hasCol "product_name" then
        match ["item_name", "product", "product_desc", "item_desc"].find?
            (fun a => df.hasCol a) with
        | some a =>
            df.setCol "product_name"
              ((df.colVals a).map (fun c => some (.str (astypeStr c))))
        | none => df
      else df
    match st.readOutput "business_product.parquet" with
    | none =>
        st.logAll [⟨table_name, "PRODUCT_DIM_LOAD_ERROR",
          .productDimLoadError "Could not read business_product.parquet",
          "ERROR"⟩]
    | some pdim =>
        let prod_dim := standardize pdim
        if ¬ df.hasCol "product_id" then
          if df.hasCol "product_name" ∧ prod_dim.hasCol "product_name" then
            lineItemsFinish
              (leftJoin df (prod_dim.select ["product_id", "product_name"])
                "product_name") st
          else if df.hasCol "order_id" ∧ df.hasCol "quantity" ∧
              df.hasCol "price" then
            lineItemsFinish
              (df.setCol "product_id"
                (List.zipWith
                  (fun c i => some (.str (astypeStr c ++ "_" ++ toString i)))
                  (df.colVals "order_id") (List.range df.rows.length))) st
          else st
        else lineItemsFinish df st
  else if strContains file "order_delays" then
    let df :=
      if df.hasCol "orderid" ∧ ¬ df.hasCol "order_id" then
        df.renameCols [("orderid", "order_id")]
      else df
    let df := df.dropDupsAll
    st.write "operations_order_delays.parquet" df
  else st

/-- `_rename_marketing_columns`. -/
def rename_marketing_columns (df : DF) (file : String) : DF :=
  df.renameCols
    ((if df.hasCol "campaignid" ∧ ¬ df.hasCol "campaign_id"
      then [("campaignid", "campaign_id")] else []) ++
     (if df.hasCol "id" ∧ ¬ df.hasCol "campaign_id" ∧
         strContains file "campaign_data"
      then [("id", "campaign_id")] else []) ++
     (if df.hasCol "orderid" ∧ ¬ df.hasCol "order_id"
      then [("orderid", "order_id")] else []) ++
     (if df.hasCol "userid" ∧ ¬ df.hasCol "user_id"
      then [("userid", "user_id")] else []))

/-- `clean_marketing`. -/
def clean_marketing (df0 : DF) (file : String) (st : SilverState) : SilverState :=
  let df := rename_marketing_columns (standardize df0) file
  if strContains file "campaign_data" ∧ ¬ strContains file "transactional" then
    let table_name := "marketing_campaign"
    let key_cols := ["campaign_id"]
    let df :=
      if ¬ df.hasCol "campaign_id" then
        if df.cols.length = 1 then
          df.setCol "campaign_id"
            ((catCodes (df.colVals (df.cols.headD ""))).map
              (fun i => some (.int i)))
        else
          df.setCol "campaign_id"
            ((positions df.rows.length).map (fun i => some (.int i)))
      else df
    let st := st.logAll (validate_required_columns df key_cols table_name)
    let st := st.logAll (check_nulls df key_cols table_name)
    let df :=
      if df.hasCol "discount" then
        df.setCol "discount_normalized"
          ((df.colVals "discount").map
            (fun c => (normalize_discount_label c).map Val.str))
      else df.setCol "discount_normalized" (df.rows.map (fun _ => none))
    let st := st.logAll (check_duplicates df key_cols table_name).2
    st.write "marketing_campaign.parquet" df
  else if strContains file "transactional_campaign" then
    let table_name := "marketing_transactional_campaign"
    let df :=
      if ¬ df.hasCol "campaign_id" then
        df.setCol "campaign_id"
          ((positions df.rows.length).map (fun i => some (.int i)))
      else df
    let df :=
      if ¬ df.hasCol "order_id" then
        df.setCol "order_id"
          ((positions df.rows.length).map (fun i => some (.int i)))
      else df
    let key_cols :=
      ["campaign_id", "order_id", "user_id"].filter (fun c => df.hasCol c)
    let st := st.logAll (check_nulls df key_cols table_name)
    let df := df.dropDupsAll
    let st := st.logAll (check_duplicates df key_cols table_name).2
    st.write "marketing_transactional_campaign.parquet" df
  else st

end ShopZada

namespace ShopZada

/-! ### Router and orchestrator -/

/-- Last path component (`os.path.basename`). -/
def basename (s : String) : String :=
  ⟨(s.data.reverse.takeWhile (fun c => c ≠ '/')).reverse⟩

/-- `while "  " in file: file = file.replace("  ", " ")`, fuel-indexed by the
string length (each pass of a string containing `"  "` strictly shrinks it,
so the fuel is sufficient). -/
def collapseSpacesAux : Nat → String → String
  | 0, s => s
  | n + 1, s =>
      if strContains s "  " then collapseSpacesAux n (pyReplace s "  " " ")
      else s

/-- The double-space collapsing loop of `cleaner`. -/
def collapseSpaces (s : String) : String :=
  collapseSpacesAux s.data.length s

/-- The normalised file identifier derived by `cleaner` from a path. -/
def normFile (path : String) : String :=
  let file : String := ⟨(basename path).data.map pyLowerChar⟩
  let file := pyReplace file " department_" "_"
  let file := pyReplace file " department " "_"
  let file := collapseSpaces file
  pyReplace file " " "_"

/-- `cleaner(path, silver_folder)`: normalise the file name, read the file,
dispatch on the name's prefix, and convert any exception into a single
`PROCESSING_ERROR` entry.  The read result is the `Except` argument (the
embedded cleaners are total, so the read boundary is where the sources'
try/except can fire). -/
def cleaner (read : Except String DF) (path : String) (st : SilverState) :
    SilverState :=
  let file := normFile path
  match read with
  | .error e =>
      st.logAll [⟨file, "PROCESSING_ERROR", .processingError e, "ERROR"⟩]
  | .ok df =>
      if file.startsWith "business_" then clean_business df file st
      else if file.startsWith "customer_management_" ||
          file.startsWith "customer_" then clean_customer df file st
      else if file.startsWith "enterprise_" then clean_enterprise df file st
      else if file.startsWith "operations_" then clean_operations df file st
      else if file.startsWith "marketing_" then clean_marketing df file st
      else st

/-- The per-file loop of `run_silver_pipeline` over the discovered bronze
files, with the bronze folder modelled as a read environment. -/
def runFiles (env : String → Except String DF) (files : List String)
    (st : SilverState) : SilverState :=
  files.foldl (fun st f => cleaner (env f) f st) st

/-- Column union in order of first appearance (`pd.concat` column layout). -/
def unionCols (css : List (List String)) : List String :=
  css.foldl (fun acc cs => acc ++ cs.filter (fun c => ¬ acc.contains c)) []

/-- `pd.concat(dfs, ignore_index=True)`: stacked rows aligned on the column
union, absent cells null. -/
def concatDFs (dfs : List DF) : DF :=
  let cols := unionCols (dfs.map (fun d => d.cols))
  { cols := cols,
    rows := dfs.flatMap (fun d => d.rows.map (fun r => cols.map (d.cell r))) }

/-- The end-of-run flush of `operations_line_items_buffer`: one concatenated
write when the buffer is non-empty. -/
def flushLineItems (st : SilverState) : SilverState :=
  if st.buffer ≠ [] then
    st.write "operations_line_items.parquet" (concatDFs st.buffer)
  else st

/-- `run_silver_pipeline` up to and including the buffer flush (the
enterprise multi-part concatenation and the quality-report persistence that
follow are further filesystem writes not touched by the claims). -/
def run_silver_pipeline (env : String → Except String DF)
    (files : List String) : SilverState :=
  flushLineItems (runFiles env files initState)

end ShopZada

namespace ShopZada

/-! ### Gold loader: surrogate-key resolution in `load_order_line_fact` -/

/-- The merchant surrogate-key resolution step of `load_order_line_fact`:
`fact.merge(merch_dim[["merchant_key", "merchant_id"]], on="merchant_id",
how="left")`. -/
def resolve_merchant_key (fact merch_dim : DF) : DF :=
  leftJoin fact (merch_dim.select ["merchant_key", "merchant_id"]) "merchant_id"

/-- The issue kinds enumerated by the spec's Quality Issue data model.
Modelled from the spec: "issue kind (enum: MISSING_COLUMNS, NULL_VALUES,
DUPLICATES, INVALID_DATETIME, INVALID_NUMERIC, PROCESSING_ERROR)". -/
def specIssueKinds : List String :=
  ["MISSING_COLUMNS", "NULL_VALUES", "DUPLICATES", "INVALID_DATETIME",
   "INVALID_NUMERIC", "PROCESSING_ERROR"]

/-- Modelled from the spec: the first-appearance categorical encoding the
spec's Key Synthesizer describes ("stable per-run mapping from distinct text
value → small integer, assigned in order of first appearance"); nulls keep
the pandas convention of `-1`.  This is the comparison point for C2, not a
translation of the source. -/
def firstAppearanceCodes (cells : List Cell) : List Int :=
  let order := (cells.filterMap id).dedup
  cells.map (fun c =>
    match c with
    | none => -1
    | some v => (idxIn v order : Int))

end ShopZada

namespace ShopZada

/-! ### Shared lemmas -/

theorem filter_notSeen_cons_mem {seen : List (List Cell)} {d : List Cell}
    (h : d ∈ seen) (D : List (List Cell)) :
    (d :: D).filter (fun t => !decide (t ∈ seen))
      = D.filter (fun t => !decide (t ∈ seen)) := by
  rw [List.filter_cons]
  simp [h]

theorem filter_notSeen_cons_not_mem {seen : List (List Cell)} {d : List Cell}
    (h : d ∉ seen) (D : List (List Cell)) :
    (d :: D).filter (fun t => !decide (t ∈ seen))
      = d :: D.filter (fun t => !decide (t ∈ seen)) := by
  rw [List.filter_cons]
  simp [h]

theorem filter_seen_length {k : List Cell} {seen : List (List Cell)}
    (hseen : k ∉ seen) :
    ∀ D : List (List Cell), D.Nodup → k ∈ D →
      (D.filter (fun t => !decide (t ∈ seen))).length
        = (D.filter (fun t => !decide (t ∈ k :: seen))).length + 1 := by
  intro D
  induction D with
  | nil => intro _ h; cases h
  | cons d D ihD =>
    intro hnd hkD
    rw [List.nodup_cons] at hnd
    by_cases hdk : d = k
    · subst hdk
      rw [filter_notSeen_cons_not_mem hseen,
          filter_notSeen_cons_mem (List.mem_cons_self d seen)]
      have hcongr : D.filter (fun t => !decide (t ∈ d :: seen))
          = D.filter (fun t => !decide (t ∈ seen)) := by
        apply List.filter_congr
        intro x hx
        have hxd : x ≠ d := fun e => hnd.1 (e ▸ hx)
        simp [List.mem_cons, hxd]
      rw [hcongr, List.length_cons]
    · have hkD' : k ∈ D := by
        cases hkD with
        | head => exact absurd rfl hdk
        | tail _ h => exact h
      have hlen := ihD hnd.2 hkD'
      by_cases hd : d ∈ seen
      · rw [filter_notSeen_cons_mem hd,
            filter_notSeen_cons_mem (List.mem_cons_of_mem k hd)]
        exact hlen
      · have hd2 : d ∉ k :: seen := by
          simp [List.mem_cons, hdk, hd]
        rw [filter_notSeen_cons_not_mem hd,
            filter_notSeen_cons_not_mem hd2,
            List.length_cons, List.length_cons]
        omega

theorem countDups_add_filter (key : List Cell → List Cell)
    (rows : List (List Cell)) :
    ∀ seen : List (List Cell),
      countDups key seen rows +
        ((rows.map key).dedup.filter (fun t => !decide (t ∈ seen))).length
      = rows.length := by
  induction rows with
  | nil => intro seen; simp [countDups]
  | cons r rs ih =>
    intro seen
    rw [countDups, List.map_cons]
    by_cases hmem : key r ∈ (rs.map key)
    · rw [List.dedup_cons_of_mem hmem]
      by_cases hseen : key r ∈ seen
      · rw [if_pos hseen]
        have hcongr :
            ((rs.map key).dedup.filter (fun t => !decide (t ∈ key r :: seen)))
              = ((rs.map key).dedup.filter (fun t => !decide (t ∈ seen))) := by
          apply List.filter_congr
          intro x _
          by_cases hx : x = key r
          · subst hx; simp [hseen]
          · simp [List.mem_cons, hx]
        have := ih (key r :: seen)
        rw [hcongr] at this
        simp only [List.length_cons]
        omega
      · rw [if_neg hseen]
        have hsplit :=
          filter_seen_length hseen ((rs.map key).dedup) (List.nodup_dedup _)
            (List.mem_dedup.mpr hmem)
        have := ih (key r :: seen)
        rw [List.length_cons, hsplit]
        omega
    · rw [List.dedup_cons_of_not_mem hmem]
      have hcongr :
          ((rs.map key).dedup.filter (fun t => !decide (t ∈ key r :: seen)))
            = ((rs.map key).dedup.filter (fun t => !decide (t ∈ seen))) := by
        apply List.filter_congr
        intro x hx
        have hxk : x ≠ key r := by
          intro e
          exact hmem (by rw [← e]; exact List.mem_dedup.mp hx)
        simp [List.mem_cons, hxk]
      by_cases hseen : key r ∈ seen
      · rw [if_pos hseen, filter_notSeen_cons_mem hseen]
        have := ih (key r :: seen)
        rw [hcongr] at this
        simp only [List.length_cons]
        omega
      · rw [if_neg hseen, filter_notSeen_cons_not_mem hseen]
        have := ih (key r :: seen)
        rw [hcongr] at this
        have hc := List.length_cons r rs
        have hc2 := List.length_cons (key r)
          ((rs.map key).dedup.filter (fun t => !decide (t ∈ seen)))
        omega

/-- The duplicate count of `df.duplicated(subset).sum()` is
`total − distinct`. -/
theorem countDups_eq_sub (key : List Cell → List Cell)
    (rows : List (List Cell)) :
    countDups key [] rows = rows.length - (rows.map key).dedup.length := by
  have h := countDups_add_filter key rows []
  have hf : ((rows.map key).dedup.filter
      (fun t => !decide (t ∈ ([] : List (List Cell)))))
      = (rows.map key).dedup := by
    apply List.filter_eq_self.mpr
    intro a _
    simp
  rw [hf] at h
  omega

end ShopZada

namespace ShopZada

/-- `check_duplicates` when every key column is present. -/
theorem check_duplicates_present (df : DF) (key_cols : List String)
    (table_name : String)
    (hp : key_cols.all (fun c => df.hasCol c) = true) :
    check_duplicates df key_cols table_name =
      (countDups (df.keyOf key_cols) [] df.rows,
       if 0 < countDups (df.keyOf key_cols) [] df.rows then
         [⟨table_name, "DUPLICATES",
           .duplicates (countDups (df.keyOf key_cols) [] df.rows) key_cols,
           "WARNING"⟩]
       else []) := by
  rw [check_duplicates, if_neg (by simp [hp])]
  simp only [gt_iff_lt]
  by_cases h0 : 0 < countDups (df.keyOf key_cols) [] df.rows
  · rw [if_pos h0, if_pos h0]
  · rw [if_neg h0, if_neg h0]

/-- C5: For every record set and key-column list where all key columns are
present, `check_duplicates` returns 0 when the key-column tuples are
pairwise-unique and exactly (total rows − number of distinct key tuples)
otherwise, logging one DUPLICATES WARNING only when that count is positive;
if any key column is absent from the record set, it returns 0 and logs
nothing. -/
theorem check_duplicates_spec (df : DF) (key_cols : List String)
    (table_name : String) :
    (key_cols.all (fun c => df.hasCol c) = true →
      (check_duplicates df key_cols table_name).1
          = df.rows.length - (df.rows.map (df.keyOf key_cols)).dedup.length ∧
      ((df.rows.map (df.keyOf key_cols)).Nodup →
        (check_duplicates df key_cols table_name).1 = 0) ∧
      (check_duplicates df key_cols table_name).2
        = (if 0 < (check_duplicates df key_cols table_name).1 then
            [⟨table_name, "DUPLICATES",
              .duplicates (check_duplicates df key_cols table_name).1
                key_cols, "WARNING"⟩]
           else [])) ∧
    (¬ key_cols.all (fun c => df.hasCol c) = true →
      check_duplicates df key_cols table_name = (0, [])) := by
  constructor
  · intro hp
    rw [check_duplicates_present df key_cols table_name hp]
    refine ⟨countDups_eq_sub _ _, fun hnd => ?_, rfl⟩
    show countDups (df.keyOf key_cols) [] df.rows = 0
    rw [countDups_eq_sub, List.dedup_eq_self.mpr hnd, List.length_map]
    omega
  · intro hp
    rw [check_duplicates, if_pos hp]

/-- C5 witness: a concrete record set with one repeated key (3 rows, 2
distinct keys) and a concrete record set missing the key column. -/
theorem check_duplicates_spec_witness :
    (check_duplicates
        ⟨["k"], [[some (.str "a")], [some (.str "a")], [some (.str "b")]]⟩
        ["k"] "t").1 = 3 - 2 ∧
    check_duplicates ⟨["other"], [[some (.str "a")]]⟩ ["k"] "t" = (0, []) := by
  constructor
  · exact ((check_duplicates_spec
      ⟨["k"], [[some (.str "a")], [some (.str "a")], [some (.str "b")]]⟩
      ["k"] "t").1 (by decide)).1
  · exact (check_duplicates_spec ⟨["other"], [[some (.str "a")]]⟩
      ["k"] "t").2 (by decide)

/-- The full shape of the `check_nulls` output. -/
theorem check_nulls_eq (df : DF) (key_cols : List String)
    (table_name : String) :
    check_nulls df key_cols table_name
      = (key_cols.filter
          (fun c => df.hasCol c && decide (0 < df.nullCount c))).map
          (fun c => ⟨table_name, "NULL_VALUES",
            .nullValues c (df.nullCount c) df.rows.length, "WARNING"⟩) := by
  induction key_cols with
  | nil => rfl
  | cons c ks ih =>
    rw [check_nulls, List.flatMap_cons, List.filter_cons]
    rw [check_nulls] at ih
    by_cases h1 : df.hasCol c = true
    · by_cases h2 : 0 < df.nullCount c
      · have hcond : (df.hasCol c && decide (0 < df.nullCount c)) = true := by
          simp [h1, h2]
        rw [hcond, if_pos rfl, List.map_cons, if_pos h1, ← ih]
        show (if df.nullCount c > 0 then
            [(⟨table_name, "NULL_VALUES",
              .nullValues c (df.nullCount c) df.rows.length,
              "WARNING"⟩ : QIssue)]
          else []) ++ _ = _
        rw [if_pos h2, List.singleton_append]
      · have hcond : (df.hasCol c && decide (0 < df.nullCount c)) = false := by
          simp [h2]
        rw [hcond, if_neg Bool.false_ne_true, if_pos h1, ← ih]
        show (if df.nullCount c > 0 then
            [(⟨table_name, "NULL_VALUES",
              .nullValues c (df.nullCount c) df.rows.length,
              "WARNING"⟩ : QIssue)]
          else []) ++ _ = _
        rw [if_neg h2, List.nil_append]
    · have h1' : df.hasCol c = false := eq_false_of_ne_true h1
      have hcond : (df.hasCol c && decide (0 < df.nullCount c)) = false := by
        simp [h1']
      rw [hcond, if_neg Bool.false_ne_true, if_neg h1, List.nil_append]
      exact ih

/-- Recogniser for a NULL_VALUES entry about a given column. -/
def isNullEntryFor (c : String) (e : QIssue) : Bool :=
  e.issue_type == "NULL_VALUES" &&
    match e.details with
    | .nullValues col _ _ => col == c
    | _ => false

/-- C8: For every record set and duplicate-free key-column list,
`check_nulls` logs no issue for a key column containing zero nulls, exactly
one NULL_VALUES WARNING per present key column containing at least one null
(its recorded counts being the column's null count and the row total, which
determine the displayed percentage `100·nulls/total` to one decimal place),
and silently skips absent key columns. -/
theorem check_nulls_spec (df : DF) (key_cols : List String)
    (table_name : String) (hnd : key_cols.Nodup) :
    check_nulls df key_cols table_name
      = (key_cols.filter
          (fun c => df.hasCol c && decide (0 < df.nullCount c))).map
          (fun c => ⟨table_name, "NULL_VALUES",
            .nullValues c (df.nullCount c) df.rows.length, "WARNING"⟩) ∧
    (∀ c ∈ key_cols,
      (check_nulls df key_cols table_name).countP (isNullEntryFor c)
        = if df.hasCol c ∧ 0 < df.nullCount c then 1 else 0) ∧
    (∀ e ∈ check_nulls df key_cols table_name,
      ∀ col n tot, e.details = .nullValues col n tot →
        (n : ℚ) / tot * 100
          = (df.nullCount col : ℚ) / df.rows.length * 100) := by
  refine ⟨check_nulls_eq df key_cols table_name, ?_, ?_⟩
  · intro c hc
    rw [check_nulls_eq, List.countP_map]
    have hcongr : ∀ x ∈ key_cols.filter
        (fun c => df.hasCol c && decide (0 < df.nullCount c)),
        (((isNullEntryFor c) ∘ (fun c => (⟨table_name, "NULL_VALUES",
            .nullValues c (df.nullCount c) df.rows.length,
            "WARNING"⟩ : QIssue))) x = true
          ↔ (x == c) = true) := by
      intro x _
      simp [isNullEntryFor]
    rw [List.countP_congr hcongr]
    have hcount : List.countP (fun x => x == c)
        (key_cols.filter (fun c => df.hasCol c && decide (0 < df.nullCount c)))
        = List.count c
          (key_cols.filter
            (fun c => df.hasCol c && decide (0 < df.nullCount c))) := rfl
    rw [hcount]
    by_cases hq : (df.hasCol c && decide (0 < df.nullCount c)) = true
    · have hmem : c ∈ key_cols.filter
          (fun c => df.hasCol c && decide (0 < df.nullCount c)) :=
        List.mem_filter.mpr ⟨hc, hq⟩
      rw [List.count_eq_one_of_mem (hnd.filter _) hmem]
      have : df.hasCol c ∧ 0 < df.nullCount c := by
        simpa using hq
      rw [if_pos this]
    · have hnotmem : c ∉ key_cols.filter
          (fun c => df.hasCol c && decide (0 < df.nullCount c)) := by
        intro hmem
        have hpc := List.of_mem_filter hmem
        exact hq hpc
      rw [List.count_eq_zero_of_not_mem hnotmem]
      have : ¬ (df.hasCol c ∧ 0 < df.nullCount c) := by
        intro h
        exact hq (by simp [h.1, h.2])
      rw [if_neg this]
  · intro e he col n tot hdet
    rw [check_nulls_eq] at he
    obtain ⟨x, hx, hxe⟩ := List.mem_map.mp he
    rw [← hxe] at hdet
    simp only [IssueDetails.nullValues.injEq] at hdet
    obtain ⟨h1, h2, h3⟩ := hdet
    rw [← h1, ← h2, ← h3]

/-- C8 witness: a record set whose key column `v` has 3 nulls out of 4 rows
and whose key column `k` has none. -/
theorem check_nulls_spec_witness :
    check_nulls
        ⟨["k", "v"],
         [[some (.str "a"), none], [some (.str "a"), some (.int 1)],
          [some (.str "b"), none], [some (.str "a"), none]]⟩
        ["k", "v", "w"] "t"
      = [⟨"t", "NULL_VALUES", .nullValues "v" 3 4, "WARNING"⟩] := by
  have h := (check_nulls_spec
    ⟨["k", "v"],
     [[some (.str "a"), none], [some (.str "a"), some (.int 1)],
      [some (.str "b"), none], [some (.str "a"), none]]⟩
    ["k", "v", "w"] "t" (by decide)).1
  rw [h]
  decide

/-- C6: `normalize_discount_label` maps the discount text `"15pct"` to the
canonical label `"15%"` and the digit-free `"N/A"` to a missing value. -/
theorem normalize_discount_label_scenarios :
    normalize_discount_label (some (.str "15pct")) = some "15%" ∧
    normalize_discount_label (some (.str "N/A")) = none := by
  constructor <;> decide

end ShopZada

namespace ShopZada

/-- C10: when the persisted business_product output cannot be read while
cleaning an operations line-item file, `clean_operations` logs one
ERROR-severity PRODUCT_DIM_LOAD_ERROR entry — a kind outside the spec's
issue-kind enumeration — and returns immediately: the state is otherwise
unchanged, so the file contributes no rows to the line-item buffer or to
the flushed operations_line_items output. -/
theorem clean_operations_dim_load_error (df : DF) (file : String)
    (st : SilverState)
    (h1 : strContains file "order_data" = false)
    (h2 : strContains file "line_item" = true)
    (h3 : st.readOutput "business_product.parquet" = none) :
    clean_operations df file st =
      { st with log := st.log ++
          [⟨"operations_line_items", "PRODUCT_DIM_LOAD_ERROR",
            .productDimLoadError "Could not read business_product.parquet",
            "ERROR"⟩] } ∧
    (clean_operations df file st).buffer = st.buffer ∧
    (clean_operations df file st).outputs = st.outputs ∧
    "PRODUCT_DIM_LOAD_ERROR" ∉ specIssueKinds := by
  have heq : clean_operations df file st =
      { st with log := st.log ++
          [⟨"operations_line_items", "PRODUCT_DIM_LOAD_ERROR",
            .productDimLoadError "Could not read business_product.parquet",
            "ERROR"⟩] } := by
    rw [clean_operations]
    rw [if_neg (by rw [h1]; exact Bool.false_ne_true), if_pos h2]
    simp only [h3]
    rfl
  refine ⟨heq, by rw [heq], by rw [heq], by decide⟩

/-- C10 witness: a one-row line-item file cleaned from the run-initial state
(no business_product output yet). -/
theorem clean_operations_dim_load_error_witness :
    clean_operations ⟨["order_id"], [[some (.str "O1")]]⟩
        "operations_line_item_data1_bronze.parquet" initState =
      { initState with log := initState.log ++
          [⟨"operations_line_items", "PRODUCT_DIM_LOAD_ERROR",
            .productDimLoadError "Could not read business_product.parquet",
            "ERROR"⟩] } ∧
    "PRODUCT_DIM_LOAD_ERROR" ∉ specIssueKinds := by
  have h := clean_operations_dim_load_error
    ⟨["order_id"], [[some (.str "O1")]]⟩
    "operations_line_item_data1_bronze.parquet" initState
    (by decide) (by decide) rfl
  exact ⟨h.1, h.2.2.2⟩

end ShopZada

namespace ShopZada

/-! ### C9: idempotence of the Column Standardizer -/

theorem char_toNat_ofNat {n : Nat} (h : n < 55296) :
    (Char.ofNat n).toNat = n := by
  unfold Char.ofNat
  rw [dif_pos (Or.inl h)]
  rfl

theorem pyLowerChar_toNat (c : Char) :
    (pyLowerChar c).toNat
      = if 65 ≤ c.toNat ∧ c.toNat ≤ 90 then c.toNat + 32 else c.toNat := by
  unfold pyLowerChar
  split
  · next h => exact char_toNat_ofNat (by omega)
  · rfl

theorem pyLowerChar_eq_self {c : Char}
    (h : ¬ (65 ≤ c.toNat ∧ c.toNat ≤ 90)) : pyLowerChar c = c := by
  unfold pyLowerChar
  rw [if_neg h]

theorem pyLowerChar_idem (c : Char) :
    pyLowerChar (pyLowerChar c) = pyLowerChar c := by
  apply pyLowerChar_eq_self
  rw [pyLowerChar_toNat]
  split <;> omega

theorem underscoreChar_idem (c : Char) :
    underscoreChar (underscoreChar c) = underscoreChar c := by
  by_cases h : (c = ' ' || c = '-') = true
  · have h1 : underscoreChar c = '_' := by unfold underscoreChar; rw [if_pos h]
    rw [h1]
    decide
  · have h1 : underscoreChar c = c := by
      unfold underscoreChar
      rw [if_neg h]
    rw [h1, h1]

theorem isPyWsN_eq_false {n : Nat} (h : 33 ≤ n) : isPyWsN n = false := by
  unfold isPyWsN
  simp only [Bool.or_eq_false_iff, decide_eq_false_iff_not]
  omega

theorem isPyWs_pyLowerChar (c : Char) : isPyWs (pyLowerChar c) = isPyWs c := by
  unfold isPyWs
  have h := pyLowerChar_toNat c
  by_cases hr : 65 ≤ c.toNat ∧ c.toNat ≤ 90
  · rw [if_pos hr] at h
    rw [h, isPyWsN_eq_false (by omega), isPyWsN_eq_false (by omega)]
  · rw [if_neg hr] at h
    rw [h]

theorem isPyWs_underscoreChar (c : Char) :
    isPyWs (underscoreChar c) = true → isPyWs c = true := by
  unfold underscoreChar
  split
  · intro h
    exact absurd h (by decide)
  · exact id

theorem lower_underscore_char_idem (c : Char) :
    underscoreChar (pyLowerChar (underscoreChar (pyLowerChar c)))
      = underscoreChar (pyLowerChar c) := by
  by_cases h : (pyLowerChar c = ' ' || pyLowerChar c = '-') = true
  · have h1 : underscoreChar (pyLowerChar c) = '_' := by
      unfold underscoreChar
      rw [if_pos h]
    rw [h1]
    decide
  · have h1 : underscoreChar (pyLowerChar c) = pyLowerChar c := by
      unfold underscoreChar
      rw [if_neg h]
    rw [h1, pyLowerChar_idem, h1]

theorem dropWhile_map_eq_self {p : Char → Bool} {f : Char → Char}
    (hf : ∀ c, p (f c) = true → p c = true) {l : List Char}
    (h : List.dropWhile p l = l) :
    List.dropWhile p (l.map f) = l.map f := by
  cases l with
  | nil => rfl
  | cons c cs =>
    have hc : p c = false := by
      by_contra hp
      have hp' : p c = true := by
        cases hpc : p c with
        | false => exact absurd hpc hp
        | true => rfl
      rw [List.dropWhile_cons, if_pos hp'] at h
      have hlen : (List.dropWhile p cs).length ≤ cs.length :=
        (List.dropWhile_suffix p).length_le
      rw [h] at hlen
      simp at hlen
    have hfc : p (f c) = false := by
      cases hfc : p (f c) with
      | false => rfl
      | true => rw [hf c hfc] at hc; cases hc
    rw [List.map_cons, List.dropWhile_cons, if_neg (by rw [hfc]; simp)]

theorem pyStrip_reverse_fix (l : List Char) :
    List.dropWhile isPyWs (pyStrip l).reverse = (pyStrip l).reverse := by
  unfold pyStrip
  rw [List.reverse_reverse]
  exact List.dropWhile_idempotent _ _

theorem pyStrip_fix (l : List Char) :
    List.dropWhile isPyWs (pyStrip l) = pyStrip l := by
  unfold pyStrip
  cases hX : ((List.dropWhile isPyWs l).reverse.dropWhile isPyWs).reverse with
  | nil => rfl
  | cons c cs =>
    have hpre : ((List.dropWhile isPyWs l).reverse.dropWhile isPyWs).reverse
        <+: List.dropWhile isPyWs l := by
      have hs := List.dropWhile_suffix (l := (List.dropWhile isPyWs l).reverse)
        isPyWs
      have := hs.reverse
      rwa [List.reverse_reverse] at this
    rw [hX] at hpre
    obtain ⟨t, ht⟩ := hpre
    have hhead : (List.dropWhile isPyWs l).head? = some c := by
      rw [← ht]
      rfl
    have hc : isPyWs c = false := by
      have hmatch := List.head?_dropWhile_not isPyWs l
      rw [hhead] at hmatch
      exact hmatch
    rw [List.dropWhile_cons, if_neg (by rw [hc]; simp)]

theorem pyStrip_eq_self {l : List Char}
    (h1 : List.dropWhile isPyWs l = l)
    (h2 : List.dropWhile isPyWs l.reverse = l.reverse) :
    pyStrip l = l := by
  unfold pyStrip
  rw [h1, h2, List.reverse_reverse]

theorem stdName_idem (s : String) : stdName (stdName s) = stdName s := by
  have hdata : (stdName s).data
      = ((pyStrip s.data).map pyLowerChar).map underscoreChar := rfl
  have hstrip : pyStrip (stdName s).data = (stdName s).data := by
    rw [hdata]
    apply pyStrip_eq_self
    · apply dropWhile_map_eq_self isPyWs_underscoreChar
      apply dropWhile_map_eq_self (fun c h => by rwa [isPyWs_pyLowerChar] at h)
      exact pyStrip_fix s.data
    · rw [← List.map_reverse, ← List.map_reverse]
      apply dropWhile_map_eq_self isPyWs_underscoreChar
      apply dropWhile_map_eq_self (fun c h => by rwa [isPyWs_pyLowerChar] at h)
      exact pyStrip_reverse_fix s.data
  show (⟨((pyStrip (stdName s).data).map pyLowerChar).map underscoreChar⟩ : String)
      = stdName s
  rw [hstrip, hdata, List.map_map, List.map_map, List.map_map]
  have hmap : ∀ c ∈ pyStrip s.data,
      ((((underscoreChar ∘ pyLowerChar) ∘ underscoreChar) ∘ pyLowerChar)) c
        = (underscoreChar ∘ pyLowerChar) c := by
    intro c _
    exact lower_underscore_char_idem c
  rw [List.map_congr_left hmap]
  show (⟨List.map (underscoreChar ∘ pyLowerChar) (pyStrip s.data)⟩ : String)
      = ⟨List.map underscoreChar (List.map pyLowerChar (pyStrip s.data))⟩
  rw [List.map_map]

/-- C9: the Column Standardizer is idempotent — standardizing a record set
twice produces the same result (in particular the same column names) as
standardizing once. -/
theorem standardize_idem (df : DF) :
    standardize (standardize df) = standardize df := by
  unfold standardize
  simp only [List.map_map]
  congr 1
  apply List.map_congr_left
  intro c _
  exact stdName_idem c

end ShopZada

namespace ShopZada

theorem findIdx?_append_singleton {c : String} :
    ∀ (l : List String), c ∉ l → ∀ i : Nat,
      (l ++ [c]).findIdx? (· == c) i = some (l.length + i)
  | [], _, i => by simp [List.findIdx?_cons]
  | a :: as, h, i => by
    have ha : (a == c) = false := by
      simp only [beq_eq_false_iff_ne, ne_eq]
      intro e
      exact h (e ▸ List.mem_cons_self a as)
    rw [List.cons_append, List.findIdx?_cons, ha]
    simp only [Bool.false_eq_true, if_false]
    rw [findIdx?_append_singleton as (fun hmem => h (List.mem_cons_of_mem a hmem)) (i + 1)]
    simp only [List.length_cons]
    congr 1
    omega

/-- C7: in the Gold fact load, a line-item row whose merchant_id has no
matching merchant_dim row still yields a fact row — present in the joined
result — with its merchant_key null rather than the row being dropped
(`how="left"` surrogate-key resolution). -/
theorem resolve_merchant_key_unmatched (fact merch_dim : DF) (r : List Cell)
    (hr : r ∈ fact.rows)
    (hwf : r.length = fact.cols.length)
    (hmk : "merchant_key" ∉ fact.cols)
    (hunmatched : ∀ rr ∈ merch_dim.rows,
      merch_dim.cell rr "merchant_id" ≠ fact.cell r "merchant_id") :
    (r ++ [none]) ∈ (resolve_merchant_key fact merch_dim).rows ∧
    (resolve_merchant_key fact merch_dim).cell (r ++ [none]) "merchant_key"
      = none := by
  have hright : ((merch_dim.select ["merchant_key", "merchant_id"]).cols.filter
      (fun c => c ≠ "merchant_id")) = ["merchant_key"] := by rfl
  have hmatches : ((merch_dim.select ["merchant_key", "merchant_id"]).rows.filter
      (fun rr => (merch_dim.select ["merchant_key", "merchant_id"]).cell rr
          "merchant_id" = fact.cell r "merchant_id")) = [] := by
    rw [List.filter_eq_nil_iff]
    intro a ha
    obtain ⟨rr, hrr, hrra⟩ := List.mem_map.mp ha
    simp only [decide_eq_true_eq]
    rw [← hrra]
    have hcell : (merch_dim.select ["merchant_key", "merchant_id"]).cell
        (["merchant_key", "merchant_id"].map (merch_dim.cell rr))
        "merchant_id" = merch_dim.cell rr "merchant_id" := rfl
    rw [hcell]
    exact hunmatched rr hrr
  constructor
  · unfold resolve_merchant_key leftJoin
    apply List.mem_flatMap.mpr
    refine ⟨r, hr, ?_⟩
    simp only [hright, hmatches]
    simp
  · unfold resolve_merchant_key leftJoin DF.cell DF.colIdx
    simp only [hright]
    rw [findIdx?_append_singleton fact.cols hmk 0]
    show (r ++ [none]).getD (fact.cols.length + 0) none = none
    rw [Nat.add_zero, ← hwf, List.getD_eq_getElem?_getD,
      List.getElem?_append_right (Nat.le_refl _)]
    simp

/-- C7 witness: a one-row fact whose merchant_id `M9` is absent from the
merchant dimension. -/
theorem resolve_merchant_key_unmatched_witness :
    ([some (.str "O1"), some (.str "M9")] ++ [none]) ∈
      (resolve_merchant_key
        ⟨["order_id", "merchant_id"], [[some (.str "O1"), some (.str "M9")]]⟩
        ⟨["merchant_key", "merchant_id"],
         [[some (.int 1), some (.str "M1")]]⟩).rows ∧
    (resolve_merchant_key
        ⟨["order_id", "merchant_id"], [[some (.str "O1"), some (.str "M9")]]⟩
        ⟨["merchant_key", "merchant_id"],
         [[some (.int 1), some (.str "M1")]]⟩).cell
      ([some (.str "O1"), some (.str "M9")] ++ [none]) "merchant_key"
      = none :=
  resolve_merchant_key_unmatched
    ⟨["order_id", "merchant_id"], [[some (.str "O1"), some (.str "M9")]]⟩
    ⟨["merchant_key", "merchant_id"], [[some (.int 1), some (.str "M1")]]⟩
    [some (.str "O1"), some (.str "M9")]
    (by decide) (by decide) (by decide) (by decide)

end ShopZada

namespace ShopZada

/-- C4: a failed read of a file is caught at the Router: the only state
change is one PROCESSING_ERROR entry at ERROR severity keyed by the file's
normalized name (buffer, outputs and earlier log untouched), and the batch
loop processes every file in sequence regardless — the state after
`files ++ [f]` is the cleaner applied to the state after `files`, so no
per-file failure aborts the run.  The embedded validators and cleaners are
total functions into the state (data-quality findings only ever surface as
appended Quality Issue entries), so the read boundary is the only point
where the sources' try/except can fire. -/
theorem cleaner_error_handling :
    (∀ (path e : String) (st : SilverState),
      cleaner (.error e) path st =
        { st with log := st.log ++
            [⟨normFile path, "PROCESSING_ERROR", .processingError e,
              "ERROR"⟩] }) ∧
    (∀ (env : String → Except String DF) (files : List String) (f : String)
        (st : SilverState),
      runFiles env (files ++ [f]) st
        = cleaner (env f) f (runFiles env files st)) := by
  constructor
  · intro path e st
    rfl
  · intro env files f st
    unfold runFiles
    rw [List.foldl_append]
    rfl

end ShopZada

namespace ShopZada

/-- C1 counterexample: a concrete business_product record set with 5 rows,
two sharing product_id `P1`, one with a null product_id.  The persisted
output has 3 rows and the log gains a NULL_VALUES entry, but no DUPLICATES
entry is logged for business_product: `check_duplicates` runs only after
the duplicates have been dropped, so the claimed DUPLICATES entry never
appears. -/
theorem clean_business_scenario_counterexample :
    let df0 : DF := ⟨["product_id", "product_name"],
      [[some (.str "P1"), some (.str "a")],
       [some (.str "P1"), some (.str "b")],
       [some (.str "P2"), some (.str "c")],
       [none, some (.str "d")],
       [some (.str "P3"), some (.str "e")]]⟩
    let st := clean_business df0 "business_product_bronze.parquet" initState
    df0.rows.length = 5 ∧
    st.outputs.map (fun p => (p.1, p.2.rows.length))
      = [("business_product.parquet", 3)] ∧
    st.log.any (fun e =>
      e.table == "business_product" && e.issue_type == "NULL_VALUES") = true ∧
    st.log.any (fun e =>
      e.table == "business_product" && e.issue_type == "DUPLICATES") = false := by
  decide

end ShopZada

namespace ShopZada

/-- C1 (amended): for a business_product input record set with 5 rows, two
sharing the same product_id, one with a null product_id and the remaining
ids distinct, the cleaned output persisted by `clean_business` has exactly
3 rows and the quality log gains a NULL_VALUES entry — but, contrary to the
original claim, no DUPLICATES entry — for table business_product, because
`check_duplicates` runs only after the duplicate rows have been dropped. -/
theorem clean_business_scenario (a b c : Val) (n1 n2 n3 n4 n5 : Cell)
    (st : SilverState) (hab : a ≠ b) (hac : a ≠ c) (hbc : b ≠ c) :
    let df0 : DF := ⟨["product_id", "product_name"],
      [[some a, n1], [some a, n2], [some b, n3], [none, n4], [some c, n5]]⟩
    let st' := clean_business df0 "business_product_bronze.parquet" st
    st'.outputs.map (fun p => (p.1, p.2.rows.length))
        = st.outputs.map (fun p => (p.1, p.2.rows.length))
          ++ [("business_product.parquet", 3)] ∧
    st'.log = st.log ++ [⟨"business_product", "NULL_VALUES",
        .nullValues "product_id" 1 5, "WARNING"⟩] ∧
    (∀ e ∈ st'.log, e.issue_type = "DUPLICATES" → e ∈ st.log) := by
  intro df0 st'
  have hstep : DF.dropDupsBy ⟨["product_id", "product_name"],
      [[some a, n1], [some a, n2], [some b, n3], [some c, n5]]⟩ ["product_id"]
      = ⟨["product_id", "product_name"],
         [[some a, n1], [some b, n3], [some c, n5]]⟩ := by
    unfold DF.dropDupsBy
    congr 1
    have hm12 : (⟨["product_id", "product_name"],
        [[some a, n1], [some a, n2], [some b, n3], [some c, n5]]⟩ : DF).keyOf
          ["product_id"] [some a, n2]
        ∈ [(⟨["product_id", "product_name"],
            [[some a, n1], [some a, n2], [some b, n3], [some c, n5]]⟩ : DF).keyOf
          ["product_id"] [some a, n1]] :=
      List.mem_singleton.mpr rfl
    rw [keepFirsts, if_neg (List.not_mem_nil _)]
    rw [keepFirsts, if_pos hm12]
    rw [keepFirsts, if_neg ?hb]
    rw [keepFirsts, if_neg ?hc]
    rw [keepFirsts]
    case hb =>
      intro h
      rw [List.mem_singleton] at h
      have h0 : (some b : Cell) = some a :=
        congrArg (fun l => l.getD 0 none) h
      exact hab (Option.some_inj.mp h0).symm
    case hc =>
      intro h
      rcases List.mem_cons.mp h with h1 | h1
      · have h0 : (some c : Cell) = some b :=
          congrArg (fun l => l.getD 0 none) h1
        exact hbc (Option.some_inj.mp h0).symm
      · rw [List.mem_singleton] at h1
        have h0 : (some c : Cell) = some a :=
          congrArg (fun l => l.getD 0 none) h1
        exact hac (Option.some_inj.mp h0).symm
  have hcount : countDups
      (DF.keyOf ⟨["product_id", "product_name"],
        [[some a, n1], [some b, n3], [some c, n5]]⟩ ["product_id"]) []
      [[some a, n1], [some b, n3], [some c, n5]] = 0 := by
    rw [countDups, if_neg (List.not_mem_nil _)]
    rw [countDups, if_neg ?h3]
    rw [countDups, if_neg ?h5]
    rw [countDups]
    case h3 =>
      intro h
      rw [List.mem_singleton] at h
      have h0 : (some b : Cell) = some a :=
        congrArg (fun l => l.getD 0 none) h
      exact hab (Option.some_inj.mp h0).symm
    case h5 =>
      intro h
      rcases List.mem_cons.mp h with h1 | h1
      · have h0 : (some c : Cell) = some b :=
          congrArg (fun l => l.getD 0 none) h1
        exact hbc (Option.some_inj.mp h0).symm
      · rw [List.mem_singleton] at h1
        have h0 : (some c : Cell) = some a :=
          congrArg (fun l => l.getD 0 none) h1
        exact hac (Option.some_inj.mp h0).symm
  have hcd : check_duplicates ⟨["product_id", "product_name"],
      [[some a, n1], [some b, n3], [some c, n5]]⟩ ["product_id"]
      "business_product" = (0, []) := by
    rw [check_duplicates_present _ _ _ (by rfl), hcount]
    rfl
  have hst : st' = (((st.logAll []).logAll
      [⟨"business_product", "NULL_VALUES", .nullValues "product_id" 1 5,
        "WARNING"⟩]).logAll []).write "business_product.parquet"
      ⟨["product_id", "product_name"],
       [[some a, n1], [some b, n3], [some c, n5]]⟩ := by
    show clean_business df0 "business_product_bronze.parquet" st = _
    rw [clean_business]
    have hbranch : (if (standardize df0).hasCol "product_id" = true then
        ((standardize df0).dropna ["product_id"]).dropDupsBy ["product_id"]
      else standardize df0)
        = ⟨["product_id", "product_name"],
           [[some a, n1], [some b, n3], [some c, n5]]⟩ := by
      have hp : (standardize df0).hasCol "product_id" = true := rfl
      rw [if_pos hp]
      have h1 : (standardize df0).dropna ["product_id"]
          = ⟨["product_id", "product_name"],
             [[some a, n1], [some a, n2], [some b, n3], [some c, n5]]⟩ := rfl
      rw [h1, hstep]
    rw [hbranch, hcd]
    rfl
  rw [hst]
  refine ⟨?_, ?_, ?_⟩
  · show (st.outputs ++
        [("business_product.parquet",
          (⟨["product_id", "product_name"],
            [[some a, n1], [some b, n3], [some c, n5]]⟩ : DF))]).map
        (fun p => (p.1, p.2.rows.length)) = _
    rw [List.map_append]
    rfl
  · show ((st.log ++ []) ++ [_]) ++ [] = _
    simp
  · intro e he hdup
    show e ∈ st.log
    have he' : e ∈ ((st.log ++ []) ++
        [(⟨"business_product", "NULL_VALUES", .nullValues "product_id" 1 5,
          "WARNING"⟩ : QIssue)]) ++ [] := he
    simp only [List.append_nil] at he'
    rcases List.mem_append.mp he' with h1 | h1
    · exact h1
    · rw [List.mem_singleton] at h1
      rw [h1] at hdup
      exact absurd hdup (by decide)

end ShopZada

namespace ShopZada

/-! ### Generic row/column bookkeeping lemmas -/

theorem getD_append_length (r : List Cell) (v : Cell) :
    (r ++ [v]).getD r.length none = v := by
  rw [List.getD_eq_getElem?_getD, List.getElem?_append_right (Nat.le_refl _)]
  simp

theorem zipAppend_map_getD_last (k : Nat) :
    ∀ (rows : List (List Cell)) (extra : List Cell),
      extra.length = rows.length → (∀ r ∈ rows, r.length = k) →
      (List.zipWith (fun r v => r ++ [v]) rows extra).map
          (fun r => r.getD k none) = extra := by
  intro rows
  induction rows with
  | nil =>
    intro extra hlen _
    rw [List.length_nil, List.length_eq_zero] at hlen
    subst hlen
    rfl
  | cons r rs ih =>
    intro extra hlen hk
    cases extra with
    | nil => simp at hlen
    | cons e es =>
      rw [List.zipWith_cons_cons, List.map_cons]
      have hr : r.length = k := hk r (List.mem_cons_self r rs)
      have hhead : (r ++ [e]).getD k none = e := by
        rw [← hr]
        exact getD_append_length r e
      rw [hhead, ih es (by simpa using hlen)
        (fun x hx => hk x (List.mem_cons_of_mem r hx))]

theorem zipAppend_map_getD_lt (i : Nat) :
    ∀ (rows : List (List Cell)) (extra : List Cell),
      extra.length = rows.length → (∀ r ∈ rows, i < r.length) →
      (List.zipWith (fun r v => r ++ [v]) rows extra).map
          (fun r => r.getD i none)
        = rows.map (fun r => r.getD i none) := by
  intro rows
  induction rows with
  | nil => intro extra _ _; rfl
  | cons r rs ih =>
    intro extra hlen hi
    cases extra with
    | nil => simp at hlen
    | cons e es =>
      rw [List.zipWith_cons_cons, List.map_cons, List.map_cons]
      rw [List.getD_append r [e] none i (hi r (List.mem_cons_self r rs))]
      rw [ih es (by simpa using hlen)
        (fun x hx => hi x (List.mem_cons_of_mem r hx))]

theorem zipAppend_lengths (k : Nat) :
    ∀ (rows : List (List Cell)) (extra : List Cell),
      (∀ r ∈ rows, r.length = k) →
      ∀ r' ∈ List.zipWith (fun r v => r ++ [v]) rows extra, r'.length = k + 1 := by
  intro rows
  induction rows with
  | nil => intro extra _ r' hr'; cases hr'
  | cons r rs ih =>
    intro extra hk r' hr'
    cases extra with
    | nil => cases hr'
    | cons e es =>
      rw [List.zipWith_cons_cons] at hr'
      rcases List.mem_cons.mp hr' with h | h
      · rw [h, List.length_append, hk r (List.mem_cons_self r rs)]
        rfl
      · exact ih es (fun x hx => hk x (List.mem_cons_of_mem r hx)) r' h

theorem map_getD_zero_singleton (vals : List Cell) :
    (vals.map (fun v => [v])).map (fun r => r.getD 0 none) = vals := by
  induction vals with
  | nil => rfl
  | cons v vs ih => rw [List.map_cons, List.map_cons, ih]; rfl

/-- `setCol` on an absent column appends it on the right. -/
theorem setCol_new (df : DF) (c : String) (X : List Cell)
    (h : df.colIdx c = none) :
    df.setCol c X =
      ⟨df.cols ++ [c], List.zipWith (fun r v => r ++ [v]) df.rows X⟩ := by
  unfold DF.setCol
  rw [h]

/-- `setCol` on a present column overwrites it in place. -/
theorem setCol_at (df : DF) (c : String) (X : List Cell) (i : Nat)
    (h : df.colIdx c = some i) :
    df.setCol c X =
      { df with rows := List.zipWith (fun r v => r.set i v) df.rows X } := by
  unfold DF.setCol
  rw [h]

/-- `readOutput` of a freshly written file returns the written table. -/
theorem readOutput_write (st : SilverState) (name : String) (df : DF) :
    (st.write name df).readOutput name = some df := by
  unfold SilverState.write SilverState.readOutput
  rw [List.reverse_append]
  show (((name, df) :: st.outputs.reverse).find? (fun p => p.1 == name)).map
    (fun p => p.2) = some df
  rw [List.find?_cons]
  rw [show ((name, df).1 == name) = true from beq_self_eq_true name]
  rfl

end ShopZada

namespace ShopZada

/-- C2 counterexample: a single-column marketing_campaign record set with
values `"b"` then `"a"`.  The synthesized campaign_id column is `[1, 0]`
(category codes over the lexicographically sorted distinct values), not the
first-appearance encoding `[0, 1]` the claim describes. -/
theorem clean_marketing_key_synthesis_counterexample :
    let df0 : DF := ⟨["name"], [[some (.str "b")], [some (.str "a")]]⟩
    let st := clean_marketing df0 "marketing_campaign_data_bronze.parquet"
      initState
    (st.readOutput "marketing_campaign.parquet").map
        (fun d => d.colVals "campaign_id")
      = some [some (.int 1), some (.int 0)] ∧
    (firstAppearanceCodes [some (.str "b"), some (.str "a")]).map
        (fun i => (some (.int i) : Cell))
      = [some (.int 0), some (.int 1)] ∧
    (st.readOutput "marketing_campaign.parquet").map
        (fun d => d.colVals "campaign_id")
      ≠ some ((firstAppearanceCodes [some (.str "b"), some (.str "a")]).map
          (fun i => (some (.int i) : Cell))) := by
  decide

/-- C2 (amended): when the canonical identifier column is absent the Key
Synthesizer derives one, in priority order: (a) if the record set has
exactly one (fallback) column, each distinct value is mapped to a small
integer assigned by the sorted order of the distinct values — pandas
category codes — not by order of first appearance; (b) otherwise every row
receives its zero-based position in the current record set. -/
theorem clean_marketing_key_synthesis (c0 c1 : String) (vals : List Cell)
    (pairs : List (Cell × Cell)) (file : String) (st : SilverState)
    (hstd0 : stdName c0 = c0) (hstd1 : stdName c1 = c1)
    (h0a : c0 ≠ "campaignid") (h0b : c0 ≠ "id") (h0c : c0 ≠ "campaign_id")
    (h0d : c0 ≠ "discount") (h0e : c0 ≠ "discount_normalized")
    (h0f : c0 ≠ "orderid") (h0g : c0 ≠ "userid")
    (h1a : c1 ≠ "campaignid") (h1b : c1 ≠ "id") (h1c : c1 ≠ "campaign_id")
    (h1d : c1 ≠ "discount") (h1e : c1 ≠ "discount_normalized")
    (h1f : c1 ≠ "orderid") (h1g : c1 ≠ "userid")
    (hf1 : strContains file "campaign_data" = true)
    (hf2 : strContains file "transactional" = false) :
    (((clean_marketing ⟨[c0], vals.map (fun v => [v])⟩ file st).readOutput
        "marketing_campaign.parquet").map (fun d => d.colVals "campaign_id")
      = some ((catCodes vals).map (fun i => some (.int i)))) ∧
    (((clean_marketing ⟨[c0, c1], pairs.map (fun p => [p.1, p.2])⟩ file
        st).readOutput "marketing_campaign.parquet").map
        (fun d => d.colVals "campaign_id")
      = some ((positions pairs.length).map (fun i => some (.int i)))) := by
  constructor
  · clear hstd1 h1a h1b h1c h1d h1e h1f h1g
    set df0 : DF := ⟨[c0], vals.map (fun v => [v])⟩ with hdf0
    have hsingle : ∀ x : String, x ≠ c0 → df0.hasCol x = false := by
      intro x hx
      show ([c0].contains x) = false
      rw [List.contains_cons, beq_eq_false_iff_ne.mpr hx]
      rfl
    have hA : standardize df0 = df0 := by
      show ({ cols := [stdName c0], rows := df0.rows } : DF) = df0
      rw [hstd0]
    have hren : rename_marketing_columns df0 file = df0 := by
      unfold rename_marketing_columns
      rw [if_neg (show ¬ (df0.hasCol "campaignid" = true ∧
          ¬ df0.hasCol "campaign_id" = true) from by
        rw [hsingle "campaignid" (Ne.symm h0a)]; simp)]
      rw [if_neg (show ¬ (df0.hasCol "id" = true ∧
          ¬ df0.hasCol "campaign_id" = true ∧
          strContains file "campaign_data" = true) from by
        rw [hsingle "id" (Ne.symm h0b)]; simp)]
      rw [if_neg (show ¬ (df0.hasCol "orderid" = true ∧
          ¬ df0.hasCol "order_id" = true) from by
        rw [hsingle "orderid" (Ne.symm h0f)]; simp)]
      rw [if_neg (show ¬ (df0.hasCol "userid" = true ∧
          ¬ df0.hasCol "user_id" = true) from by
        rw [hsingle "userid" (Ne.symm h0g)]; simp)]
      show df0.renameCols [] = df0
      unfold DF.renameCols
      show ({ df0 with cols := df0.cols.map (fun c => c) } : DF) = df0
      rw [List.map_id']
    have hnc2 : df0.hasCol "campaign_id" = false := hsingle _ (Ne.symm h0c)
    have hidxC : df0.colIdx "campaign_id" = none := by
      unfold DF.colIdx
      rw [List.findIdx?_cons, beq_eq_false_iff_ne.mpr h0c]
      simp only [Bool.false_eq_true, if_false]
      rw [List.findIdx?_nil]
    simp only [clean_marketing, hA, hren]
    rw [if_pos (show strContains file "campaign_data" = true ∧
        ¬ strContains file "transactional" = true from
      ⟨hf1, by rw [hf2]; exact Bool.false_ne_true⟩)]
    rw [if_pos (show ¬ (df0.hasCol "campaign_id" = true) from by
      rw [hnc2]; exact Bool.false_ne_true)]
    rw [if_pos (show df0.cols.length = 1 from rfl)]
    rw [setCol_new df0 "campaign_id" _ hidxC]
    set codes : List Cell :=
      (catCodes (df0.colVals ([c0].headD ""))).map (fun i => some (.int i)) with hcodes
    set df1 : DF := ⟨df0.cols ++ ["campaign_id"],
      List.zipWith (fun r v => r ++ [v]) df0.rows codes⟩ with hdf1
    have hdisc : df1.hasCol "discount" = false := by
      show (([c0] ++ ["campaign_id"]).contains "discount") = false
      rw [List.singleton_append, List.contains_cons,
        beq_eq_false_iff_ne.mpr (Ne.symm h0d)]
      rfl
    rw [if_neg (show ¬ (df1.hasCol "discount" = true) from by
      rw [hdisc]; exact Bool.false_ne_true)]
    have hidxDN : df1.colIdx "discount_normalized" = none := by
      show ((([c0] ++ ["campaign_id"]).findIdx? (· == "discount_normalized") 0)) = none
      rw [List.singleton_append, List.findIdx?_cons,
        beq_eq_false_iff_ne.mpr h0e]
      simp only [Bool.false_eq_true, if_false]
      rw [List.findIdx?_cons]
      simp only [List.findIdx?_nil]
      rfl
    rw [setCol_new df1 "discount_normalized" _ hidxDN]
    rw [readOutput_write]
    have hvals : df0.colVals c0 = vals := by
      have hidx0 : df0.colIdx c0 = some 0 := by
        show ([c0].findIdx? (· == c0) 0) = some 0
        rw [List.findIdx?_cons, beq_self_eq_true]
        rfl
      simp only [DF.colVals, DF.cell, hidx0]
      exact map_getD_zero_singleton vals
    have hcodes' : codes = (catCodes vals).map (fun i => some (.int i)) := by
      rw [hcodes, show ([c0].headD "") = c0 from rfl, hvals]
    have hrows0len : ∀ r ∈ vals.map (fun v => [v]), r.length = 1 := by
      intro r hr
      obtain ⟨v, _, hv⟩ := List.mem_map.mp hr
      rw [← hv]
      rfl
    have hcodeslen : codes.length = (vals.map (fun v => [v])).length := by
      rw [hcodes', List.length_map, List.length_map]
      show (catCodes vals).length = vals.length
      simp [catCodes]
    have hidx2 : DF.colIdx ⟨df1.cols ++ ["discount_normalized"],
        List.zipWith (fun r v => r ++ [v]) df1.rows
          (List.map (fun _ => none) df1.rows)⟩ "campaign_id" = some 1 := by
      show ((c0 :: "campaign_id" :: "discount_normalized" :: []).findIdx?
        (· == "campaign_id") 0) = some 1
      rw [List.findIdx?_cons, beq_eq_false_iff_ne.mpr h0c]
      simp only [Bool.false_eq_true, if_false]
      rw [List.findIdx?_cons, beq_self_eq_true]
      rfl
    simp only [Option.map_some']
    congr 1
    simp only [DF.colVals, DF.cell, hidx2]
    have hstep1 : (List.zipWith (fun r v => r ++ [v]) df1.rows
        (List.map (fun _ => (none : Cell)) df1.rows)).map (fun r => r.getD 1 none)
        = df1.rows.map (fun r => r.getD 1 none) := by
      apply zipAppend_map_getD_lt
      · rw [List.length_map]
      · intro r hr
        have := zipAppend_lengths 1 (vals.map (fun v => [v])) codes hrows0len r hr
        omega
    rw [hstep1]
    show (List.zipWith (fun r v => r ++ [v]) (vals.map (fun v => [v])) codes).map
        (fun r => r.getD 1 none) = (catCodes vals).map (fun i => some (.int i))
    rw [zipAppend_map_getD_last 1 (vals.map (fun v => [v])) codes
      hcodeslen hrows0len]
    exact hcodes'
  ·
      set df0 : DF := ⟨[c0, c1], pairs.map (fun p => [p.1, p.2])⟩ with hdf0
      have hsingle : ∀ x : String, x ≠ c0 → x ≠ c1 → df0.hasCol x = false := by
        intro x hx0 hx1
        show ([c0, c1].contains x) = false
        rw [List.contains_cons, beq_eq_false_iff_ne.mpr hx0,
          List.contains_cons, beq_eq_false_iff_ne.mpr hx1]
        rfl
      have hA : standardize df0 = df0 := by
        show ({ cols := [stdName c0, stdName c1], rows := df0.rows } : DF) = df0
        rw [hstd0, hstd1]
      have hren : rename_marketing_columns df0 file = df0 := by
        unfold rename_marketing_columns
        rw [if_neg (show ¬ (df0.hasCol "campaignid" = true ∧
            ¬ df0.hasCol "campaign_id" = true) from by
          rw [hsingle "campaignid" (Ne.symm h0a) (Ne.symm h1a)]; simp)]
        rw [if_neg (show ¬ (df0.hasCol "id" = true ∧
            ¬ df0.hasCol "campaign_id" = true ∧
            strContains file "campaign_data" = true) from by
          rw [hsingle "id" (Ne.symm h0b) (Ne.symm h1b)]; simp)]
        rw [if_neg (show ¬ (df0.hasCol "orderid" = true ∧
            ¬ df0.hasCol "order_id" = true) from by
          rw [hsingle "orderid" (Ne.symm h0f) (Ne.symm h1f)]; simp)]
        rw [if_neg (show ¬ (df0.hasCol "userid" = true ∧
            ¬ df0.hasCol "user_id" = true) from by
          rw [hsingle "userid" (Ne.symm h0g) (Ne.symm h1g)]; simp)]
        show df0.renameCols [] = df0
        unfold DF.renameCols
        show ({ df0 with cols := df0.cols.map (fun c => c) } : DF) = df0
        rw [List.map_id']
      have hnc2 : df0.hasCol "campaign_id" = false :=
        hsingle _ (Ne.symm h0c) (Ne.symm h1c)
      have hidxC : df0.colIdx "campaign_id" = none := by
        show (([c0, c1]).findIdx? (· == "campaign_id") 0) = none
        rw [List.findIdx?_cons, beq_eq_false_iff_ne.mpr h0c]
        simp only [Bool.false_eq_true, if_false]
        rw [List.findIdx?_cons, beq_eq_false_iff_ne.mpr h1c]
        simp only [Bool.false_eq_true, if_false]
        rw [List.findIdx?_nil]
      simp only [clean_marketing, hA, hren]
      rw [if_pos (show strContains file "campaign_data" = true ∧
          ¬ strContains file "transactional" = true from
        ⟨hf1, by rw [hf2]; exact Bool.false_ne_true⟩)]
      rw [if_pos (show ¬ (df0.hasCol "campaign_id" = true) from by
        rw [hnc2]; exact Bool.false_ne_true)]
      rw [if_neg (show ¬ (df0.cols.length = 1) from by
        intro h
        simp at h)]
      rw [setCol_new df0 "campaign_id" _ hidxC]
      set ids : List Cell :=
        (positions df0.rows.length).map (fun i => some (.int i)) with hids
      set df1 : DF := ⟨df0.cols ++ ["campaign_id"],
        List.zipWith (fun r v => r ++ [v]) df0.rows ids⟩ with hdf1
      have hdisc : df1.hasCol "discount" = false := by
        show (([c0, c1] ++ ["campaign_id"]).contains "discount") = false
        rw [List.cons_append, List.contains_cons,
          beq_eq_false_iff_ne.mpr (Ne.symm h0d), List.cons_append,
          List.contains_cons, beq_eq_false_iff_ne.mpr (Ne.symm h1d)]
        rfl
      rw [if_neg (show ¬ (df1.hasCol "discount" = true) from by
        rw [hdisc]; exact Bool.false_ne_true)]
      have hidxDN : df1.colIdx "discount_normalized" = none := by
        show ((c0 :: c1 :: "campaign_id" :: []).findIdx?
          (· == "discount_normalized") 0) = none
        rw [List.findIdx?_cons, beq_eq_false_iff_ne.mpr h0e]
        simp only [Bool.false_eq_true, if_false]
        rw [List.findIdx?_cons, beq_eq_false_iff_ne.mpr h1e]
        simp only [Bool.false_eq_true, if_false]
        rw [List.findIdx?_cons]
        rfl
      rw [setCol_new df1 "discount_normalized" _ hidxDN]
      rw [readOutput_write]
      have hids' : ids = (positions pairs.length).map (fun i => some (.int i)) := by
        rw [hids]
        show (positions (pairs.map (fun p => [p.1, p.2])).length).map _ = _
        rw [List.length_map]
      have hrows0len : ∀ r ∈ pairs.map (fun p => [p.1, p.2]), r.length = 2 := by
        intro r hr
        obtain ⟨p, _, hp⟩ := List.mem_map.mp hr
        rw [← hp]
        rfl
      have hidslen : ids.length = (pairs.map (fun p => [p.1, p.2])).length := by
        rw [hids', List.length_map, List.length_map]
        show (positions pairs.length).length = pairs.length
        simp [positions]
      have hidx2 : DF.colIdx ⟨df1.cols ++ ["discount_normalized"],
          List.zipWith (fun r v => r ++ [v]) df1.rows
            (List.map (fun _ => none) df1.rows)⟩ "campaign_id" = some 2 := by
        show ((c0 :: c1 :: "campaign_id" :: "discount_normalized" :: []).findIdx?
          (· == "campaign_id") 0) = some 2
        rw [List.findIdx?_cons, beq_eq_false_iff_ne.mpr h0c]
        simp only [Bool.false_eq_true, if_false]
        rw [List.findIdx?_cons, beq_eq_false_iff_ne.mpr h1c]
        simp only [Bool.false_eq_true, if_false]
        rw [List.findIdx?_cons, beq_self_eq_true]
        rfl
      simp only [Option.map_some']
      congr 1
      simp only [DF.colVals, DF.cell, hidx2]
      have hstep1 : (List.zipWith (fun r v => r ++ [v]) df1.rows
          (List.map (fun _ => (none : Cell)) df1.rows)).map (fun r => r.getD 2 none)
          = df1.rows.map (fun r => r.getD 2 none) := by
        apply zipAppend_map_getD_lt
        · rw [List.length_map]
        · intro r hr
          have := zipAppend_lengths 2 (pairs.map (fun p => [p.1, p.2])) ids
            hrows0len r hr
          omega
      rw [hstep1]
      show (List.zipWith (fun r v => r ++ [v]) (pairs.map (fun p => [p.1, p.2]))
          ids).map (fun r => r.getD 2 none)
        = (positions pairs.length).map (fun i => some (.int i))
      rw [zipAppend_map_getD_last 2 (pairs.map (fun p => [p.1, p.2])) ids
        hidslen hrows0len]
      exact hids'

end ShopZada

namespace ShopZada

/-- C2 witness: the fallback family at a concrete two-value column and the
positional family at a concrete two-column set. -/
theorem clean_marketing_key_synthesis_witness :
    (((clean_marketing ⟨["name"],
        [some (Val.str "b"), some (Val.str "a")].map (fun v => [v])⟩
        "marketing_campaign_data_bronze.parquet" initState).readOutput
        "marketing_campaign.parquet").map (fun d => d.colVals "campaign_id")
      = some ((catCodes [some (Val.str "b"), some (Val.str "a")]).map
          (fun i => some (.int i)))) ∧
    (((clean_marketing ⟨["name", "region"],
        [((some (Val.str "x") : Cell), (some (Val.str "y") : Cell))].map
          (fun p => [p.1, p.2])⟩
        "marketing_campaign_data_bronze.parquet" initState).readOutput
        "marketing_campaign.parquet").map (fun d => d.colVals "campaign_id")
      = some ((positions
          [((some (Val.str "x") : Cell), (some (Val.str "y") : Cell))].length).map
          (fun i => some (.int i)))) :=
  clean_marketing_key_synthesis "name" "region"
    [some (Val.str "b"), some (Val.str "a")]
    [((some (Val.str "x") : Cell), (some (Val.str "y") : Cell))]
    "marketing_campaign_data_bronze.parquet" initState
    (by decide) (by decide) (by decide) (by decide) (by decide) (by decide)
    (by decide) (by decide) (by decide) (by decide) (by decide) (by decide)
    (by decide) (by decide) (by decide) (by decide) (by decide) (by decide)

end ShopZada

namespace ShopZada

/-- C1 witness: the amended scenario at concrete ids P1, P1, P2, null, P3. -/
theorem clean_business_scenario_witness :
    let df0 : DF := ⟨["product_id", "product_name"],
      [[some (Val.str "P1"), some (Val.str "a")],
       [some (Val.str "P1"), some (Val.str "b")],
       [some (Val.str "P2"), some (Val.str "c")],
       [none, some (Val.str "d")],
       [some (Val.str "P3"), some (Val.str "e")]]⟩
    let st' := clean_business df0 "business_product_bronze.parquet" initState
    st'.outputs.map (fun p => (p.1, p.2.rows.length))
        = initState.outputs.map (fun p => (p.1, p.2.rows.length))
          ++ [("business_product.parquet", 3)] ∧
    st'.log = initState.log ++ [⟨"business_product", "NULL_VALUES",
        .nullValues "product_id" 1 5, "WARNING"⟩] ∧
    (∀ e ∈ st'.log, e.issue_type = "DUPLICATES" → e ∈ initState.log) :=
  clean_business_scenario (Val.str "P1") (Val.str "P2") (Val.str "P3")
    (some (Val.str "a")) (some (Val.str "b")) (some (Val.str "c"))
    (some (Val.str "d")) (some (Val.str "e")) initState
    (by decide) (by decide) (by decide)

end ShopZada

namespace ShopZada

/-! ### C3: line-item buffering across files -/

/-- A "prices" line-item file: order id (present), quantity and price cells,
no product_id or product_name column. -/
def mkLineDF (ts : List (Val × Cell × Cell)) : DF :=
  ⟨["order_id", "quantity", "price"],
   ts.map (fun t => [some t.1, t.2.1, t.2.2])⟩

/-- The synthetic product ids `order_id + "_" + index`, from index `i` on. -/
def synthIds : List (Val × Cell × Cell) → Nat → List Cell
  | [], _ => []
  | t :: ts, i =>
      some (.str (t.1.toStr ++ "_" ++ toString i)) :: synthIds ts (i + 1)

/-- Rows of the cleaned line-item table, quantity transformed by `g`. -/
def liRows (g : Cell → Cell) :
    List (Val × Cell × Cell) → Nat → List (List Cell)
  | [], _ => []
  | t :: ts, i =>
      [some t.1, g t.2.1, t.2.2,
       some (.str (t.1.toStr ++ "_" ++ toString i))] :: liRows g ts (i + 1)

/-- The cleaned line-item output of one prices file: synthetic product ids
and the quantity column coerced (numerically, or by digit extraction). -/
def lineItemOut (ts : List (Val × Cell × Cell)) : DF :=
  ⟨["order_id", "quantity", "price", "product_id"],
   liRows
     (if isNumericCol (ts.map (fun t => t.2.1)) then pyToNumeric
      else extractQty) ts 0⟩

/-- The record set kept in the buffer by the line-item branch (mirrors the
data flow of `lineItemsFinish`). -/
def liCleanDF (df0 : DF) : DF :=
  let df := clean_quantity_column df0
  if ["order_id", "product_id"].all (fun c => df.hasCol c) then
    (df.dropna ["order_id", "product_id"]).dropDupsBy
      ["order_id", "product_id"]
  else df

theorem lineItemsFinish_outputs (df0 : DF) (st : SilverState) :
    (lineItemsFinish df0 st).outputs = st.outputs := rfl

theorem lineItemsFinish_buffer (df0 : DF) (st : SilverState) :
    (lineItemsFinish df0 st).buffer = st.buffer ++ [liCleanDF df0] := rfl

theorem liRows_length (g : Cell → Cell) :
    ∀ (ts : List (Val × Cell × Cell)) (i : Nat),
      (liRows g ts i).length = ts.length := by
  intro ts
  induction ts with
  | nil => intro i; rfl
  | cons t ts ih => intro i; rw [liRows, List.length_cons, ih, List.length_cons]

theorem liRows_getD_one (g : Cell → Cell) :
    ∀ (ts : List (Val × Cell × Cell)) (i : Nat),
      (liRows g ts i).map (fun r => r.getD 1 none)
        = ts.map (fun t => g t.2.1) := by
  intro ts
  induction ts with
  | nil => intro i; rfl
  | cons t ts ih =>
    intro i
    rw [liRows, List.map_cons, List.map_cons, ih]
    rfl

theorem liRows_getD_three (g : Cell → Cell) :
    ∀ (ts : List (Val × Cell × Cell)) (i : Nat),
      (liRows g ts i).map (fun r => r.getD 3 none) = synthIds ts i := by
  intro ts
  induction ts with
  | nil => intro i; rfl
  | cons t ts ih =>
    intro i
    rw [liRows, List.map_cons, synthIds, ih]
    rfl

/-- The synthetic-id assignment produced by the source on a prices file:
indexing the order ids from `i` yields `liRows` with untouched quantity. -/
theorem synth_rows_eq :
    ∀ (ts : List (Val × Cell × Cell)) (i : Nat),
      List.zipWith (fun r v => r ++ [v])
        (ts.map (fun t => [some t.1, t.2.1, t.2.2]))
        (List.zipWith (fun c j => some (.str (astypeStr c ++ "_" ++ toString j)))
          ((ts.map (fun t => [some t.1, t.2.1, t.2.2])).map
            (fun r => r.getD 0 none))
          (List.range' i ts.length))
      = liRows (fun c => c) ts i := by
  intro ts
  induction ts with
  | nil => intro i; rfl
  | cons t ts ih =>
    intro i
    rw [List.map_cons, List.map_cons, List.length_cons, List.range'_succ,
      List.zipWith_cons_cons, List.zipWith_cons_cons, liRows, ih]
    rfl

theorem liRows_set_quantity (g2 : Cell → Cell) :
    ∀ (ts : List (Val × Cell × Cell)) (i : Nat),
      List.zipWith (fun r v => r.set 1 v) (liRows (fun c => c) ts i)
        (((liRows (fun c => c) ts i).map (fun r => r.getD 1 none)).map g2)
      = liRows g2 ts i := by
  intro ts
  induction ts with
  | nil => intro i; rfl
  | cons t ts ih =>
    intro i
    rw [liRows, List.map_cons, List.map_cons, List.zipWith_cons_cons, ih,
      liRows]
    rfl

theorem keepFirsts_eq_self (key : List Cell → List Cell) :
    ∀ (rows : List (List Cell)) (seen : List (List Cell)),
      (rows.map key).Nodup → (∀ r ∈ rows, key r ∉ seen) →
      keepFirsts key seen rows = rows := by
  intro rows
  induction rows with
  | nil => intro seen _ _; rfl
  | cons r rs ih =>
    intro seen hnd hseen
    rw [List.map_cons, List.nodup_cons] at hnd
    rw [keepFirsts, if_neg (hseen r (List.mem_cons_self r rs))]
    rw [ih (key r :: seen) hnd.2]
    intro x hx
    rw [List.mem_cons]
    rintro (h | h)
    · exact hnd.1 (h ▸ List.mem_map_of_mem key hx)
    · exact hseen x (List.mem_cons_of_mem r hx) h

theorem liRows_keys_getD_zero (g : Cell → Cell) :
    ∀ (ts : List (Val × Cell × Cell)) (i : Nat),
      ((liRows g ts i).map (fun r => [r.getD 0 none, r.getD 3 none])).map
          (fun l => l.getD 0 none)
        = (ts.map (fun t => t.1)).map (fun v => (some v : Cell)) := by
  intro ts
  induction ts with
  | nil => intro i; rfl
  | cons t ts ih =>
    intro i
    rw [liRows, List.map_cons, List.map_cons, List.map_cons, List.map_cons,
      ih]
    rfl

end ShopZada

namespace ShopZada

theorem liRows_mem_shape (g : Cell → Cell) :
    ∀ (ts : List (Val × Cell × Cell)) (i : Nat) (r : List Cell),
      r ∈ liRows g ts i →
      ∃ t : Val × Cell × Cell, ∃ j : Nat,
        r = [some t.1, g t.2.1, t.2.2,
             some (.str (t.1.toStr ++ "_" ++ toString j))] := by
  intro ts
  induction ts with
  | nil => intro i r hr; cases hr
  | cons t ts ih =>
    intro i r hr
    rw [liRows] at hr
    rcases List.mem_cons.mp hr with h | h
    · exact ⟨t, i, h⟩
    · exact ih (i + 1) r h

theorem clean_quantity_liRows (ts : List (Val × Cell × Cell)) :
    clean_quantity_column ⟨["order_id", "quantity", "price", "product_id"],
      liRows (fun c => c) ts 0⟩
      = ⟨["order_id", "quantity", "price", "product_id"],
         liRows (if isNumericCol (ts.map (fun t => t.2.1)) then pyToNumeric
           else extractQty) ts 0⟩ := by
  have halias : aliasQuantity ⟨["order_id", "quantity", "price",
      "product_id"], liRows (fun c => c) ts 0⟩
      = ⟨["order_id", "quantity", "price", "product_id"],
         liRows (fun c => c) ts 0⟩ := rfl
  have hcv : DF.colVals ⟨["order_id", "quantity", "price", "product_id"],
      liRows (fun c => c) ts 0⟩ "quantity"
      = (liRows (fun c => c) ts 0).map (fun r => r.getD 1 none) := rfl
  have hidx : DF.colIdx ⟨["order_id", "quantity", "price", "product_id"],
      liRows (fun c => c) ts 0⟩ "quantity" = some 1 := rfl
  unfold clean_quantity_column
  rw [halias]
  rw [if_neg (show ¬ (¬ (DF.hasCol ⟨["order_id", "quantity", "price",
      "product_id"], liRows (fun c => c) ts 0⟩ "quantity" = true))
    from fun h => h rfl)]
  by_cases hcase : isNumericCol (ts.map (fun t => t.2.1)) = true
  · rw [if_pos (show isNumericCol (DF.colVals ⟨["order_id", "quantity",
        "price", "product_id"], liRows (fun c => c) ts 0⟩ "quantity") = true
      from by rw [hcv, liRows_getD_one]; exact hcase)]
    rw [setCol_at _ _ _ 1 hidx]
    rw [if_pos hcase]
    congr 1
    rw [show DF.rows ⟨["order_id", "quantity", "price", "product_id"],
      liRows (fun c => c) ts 0⟩ = liRows (fun c => c) ts 0 from rfl]
    rw [hcv]
    exact liRows_set_quantity pyToNumeric ts 0
  · rw [if_neg (show ¬ (isNumericCol (DF.colVals ⟨["order_id", "quantity",
        "price", "product_id"], liRows (fun c => c) ts 0⟩ "quantity") = true)
      from by rw [hcv, liRows_getD_one]; exact hcase)]
    rw [setCol_at _ _ _ 1 hidx]
    rw [if_neg hcase]
    congr 1
    rw [show DF.rows ⟨["order_id", "quantity", "price", "product_id"],
      liRows (fun c => c) ts 0⟩ = liRows (fun c => c) ts 0 from rfl]
    rw [hcv]
    exact liRows_set_quantity extractQty ts 0

theorem liCleanDF_eq (ts : List (Val × Cell × Cell))
    (hnd : (ts.map (fun t => t.1)).Nodup) :
    liCleanDF ⟨["order_id", "quantity", "price", "product_id"],
      liRows (fun c => c) ts 0⟩ = lineItemOut ts := by
  show (let df := clean_quantity_column ⟨["order_id", "quantity", "price",
      "product_id"], liRows (fun c => c) ts 0⟩
    if ["order_id", "product_id"].all (fun c => df.hasCol c) then
      (df.dropna ["order_id", "product_id"]).dropDupsBy
        ["order_id", "product_id"]
    else df) = lineItemOut ts
  rw [clean_quantity_liRows]
  set g2 : Cell → Cell :=
    if isNumericCol (ts.map (fun t => t.2.1)) then pyToNumeric
    else extractQty with hg2
  rw [if_pos (show (["order_id", "product_id"].all (fun c =>
      DF.hasCol ⟨["order_id", "quantity", "price", "product_id"],
        liRows g2 ts 0⟩ c)) = true from rfl)]
  have hdropna : DF.dropna ⟨["order_id", "quantity", "price", "product_id"],
      liRows g2 ts 0⟩ ["order_id", "product_id"]
      = ⟨["order_id", "quantity", "price", "product_id"], liRows g2 ts 0⟩ := by
    unfold DF.dropna
    congr 1
    apply List.filter_eq_self.mpr
    intro r hr
    obtain ⟨t, j, hshape⟩ := liRows_mem_shape g2 ts 0 r hr
    rw [hshape]
    rfl
  rw [hdropna]
  have hdedup : DF.dropDupsBy ⟨["order_id", "quantity", "price",
      "product_id"], liRows g2 ts 0⟩ ["order_id", "product_id"]
      = ⟨["order_id", "quantity", "price", "product_id"],
         liRows g2 ts 0⟩ := by
    unfold DF.dropDupsBy
    congr 1
    apply keepFirsts_eq_self
    · have hbridge : (liRows g2 ts 0).map
          (DF.keyOf ⟨["order_id", "quantity", "price", "product_id"],
            liRows g2 ts 0⟩ ["order_id", "product_id"])
          = (liRows g2 ts 0).map
            (fun r => [r.getD 0 none, r.getD 3 none]) := rfl
      rw [hbridge]
      apply List.Nodup.of_map (fun l => l.getD 0 none)
      rw [liRows_keys_getD_zero]
      exact hnd.map (fun a b h => Option.some_inj.mp h)
    · intro r _
      exact List.not_mem_nil _
  rw [hdedup]
  rfl

end ShopZada

namespace ShopZada

theorem clean_operations_line_item_reduces (ts : List (Val × Cell × Cell))
    (f : String) (st : SilverState) (pdim : DF)
    (hfa : strContains f "order_data" = false)
    (hfb : strContains f "line_item" = true)
    (hpd : st.readOutput "business_product.parquet" = some pdim) :
    clean_operations (mkLineDF ts) f st
      = lineItemsFinish ⟨["order_id", "quantity", "price", "product_id"],
          liRows (fun c => c) ts 0⟩ st := by
  have hA : standardize (mkLineDF ts) = mkLineDF ts := rfl
  have hren : rename_operations_columns (mkLineDF ts) = mkLineDF ts := rfl
  have hsynth : (mkLineDF ts).setCol "product_id"
      (List.zipWith (fun c i => some (.str (astypeStr c ++ "_" ++ toString i)))
        ((mkLineDF ts).colVals "order_id")
        (List.range (mkLineDF ts).rows.length))
      = ⟨["order_id", "quantity", "price", "product_id"],
         liRows (fun c => c) ts 0⟩ := by
    rw [setCol_new _ _ _
      (show (mkLineDF ts).colIdx "product_id" = none from rfl)]
    congr 1
    rw [show (mkLineDF ts).colVals "order_id"
      = ((ts.map (fun t => [some t.1, t.2.1, t.2.2])).map
          (fun r => r.getD 0 none)) from rfl]
    rw [show (mkLineDF ts).rows
      = ts.map (fun t => [some t.1, t.2.1, t.2.2]) from rfl]
    rw [List.length_map, List.range_eq_range']
    exact synth_rows_eq ts 0
  simp only [clean_operations, hA, hren]
  rw [if_neg (show ¬ (strContains f "order_data" = true) from by
    rw [hfa]; exact Bool.false_ne_true)]
  rw [if_pos hfb]
  rw [if_neg (show ¬ (¬ ((mkLineDF ts).hasCol "quantity" = true))
    from fun h => h rfl)]
  rw [if_neg (show ¬ (¬ ((mkLineDF ts).hasCol "price" = true) ∧
      (mkLineDF ts).hasCol "unit_price" = true) from fun h => h.1 rfl)]
  rw [if_pos (show ¬ ((mkLineDF ts).hasCol "product_name" = true)
    from fun h => Bool.false_ne_true h)]
  simp only [show (["item_name", "product", "product_desc",
      "item_desc"].find? (fun a => (mkLineDF ts).hasCol a)) = none from rfl]
  simp only [hpd]
  rw [if_pos (show ¬ ((mkLineDF ts).hasCol "product_id" = true)
    from fun h => Bool.false_ne_true h)]
  rw [if_neg (show ¬ ((mkLineDF ts).hasCol "product_name" = true ∧
      (standardize pdim).hasCol "product_name" = true)
    from fun h => Bool.false_ne_true h.1)]
  rw [if_pos (show (mkLineDF ts).hasCol "order_id" = true ∧
      (mkLineDF ts).hasCol "quantity" = true ∧
      (mkLineDF ts).hasCol "price" = true from ⟨rfl, rfl, rfl⟩)]
  rw [hsynth]

end ShopZada

namespace ShopZada

theorem liRows_reassemble (g : Cell → Cell) :
    ∀ (ts : List (Val × Cell × Cell)) (i : Nat),
      (liRows g ts i).map (fun r =>
          [r.getD 0 none, r.getD 1 none, r.getD 2 none, r.getD 3 none])
        = liRows g ts i := by
  intro ts
  induction ts with
  | nil => intro i; rfl
  | cons t ts ih =>
    intro i
    rw [liRows, List.map_cons, ih]
    rfl

/-- C3: line-item record sets from two distinct prices files (no product_id
or product_name, distinct order ids within each file) are each given
synthetic product ids, both are buffered, and the single flushed
operations_line_items output stacks both files' cleaned rows, its row count
being the sum of the two cleaned row counts. -/
theorem clean_operations_line_item_buffering
    (ts1 ts2 : List (Val × Cell × Cell)) (f1 f2 : String)
    (st0 : SilverState) (pdim : DF)
    (h1a : strContains f1 "order_data" = false)
    (h1b : strContains f1 "line_item" = true)
    (h2a : strContains f2 "order_data" = false)
    (h2b : strContains f2 "line_item" = true)
    (hnd1 : (ts1.map (fun t => t.1)).Nodup)
    (hnd2 : (ts2.map (fun t => t.1)).Nodup)
    (hbuf : st0.buffer = [])
    (hpd : st0.readOutput "business_product.parquet" = some pdim) :
    let st1 := clean_operations (mkLineDF ts1) f1 st0
    let st2 := clean_operations (mkLineDF ts2) f2 st1
    st2.buffer = [lineItemOut ts1, lineItemOut ts2] ∧
    (lineItemOut ts1).rows.length = ts1.length ∧
    (lineItemOut ts2).rows.length = ts2.length ∧
    (lineItemOut ts1).colVals "product_id" = synthIds ts1 0 ∧
    (lineItemOut ts2).colVals "product_id" = synthIds ts2 0 ∧
    (flushLineItems st2).readOutput "operations_line_items.parquet"
      = some ⟨["order_id", "quantity", "price", "product_id"],
          (lineItemOut ts1).rows ++ (lineItemOut ts2).rows⟩ ∧
    ((flushLineItems st2).readOutput "operations_line_items.parquet").map
        (fun d => d.rows.length) = some (ts1.length + ts2.length) := by
  intro st1 st2
  have e1 : st1 =
      lineItemsFinish ⟨["order_id", "quantity", "price", "product_id"],
        liRows (fun c => c) ts1 0⟩ st0 :=
    clean_operations_line_item_reduces ts1 f1 st0 pdim h1a h1b hpd
  have hout1 : st1.outputs = st0.outputs := by
    rw [e1, lineItemsFinish_outputs]
  have hb1 : st1.buffer = st0.buffer ++ [lineItemOut ts1] := by
    rw [e1, lineItemsFinish_buffer, liCleanDF_eq ts1 hnd1]
  have hread1 : st1.readOutput "business_product.parquet" = some pdim := by
    unfold SilverState.readOutput
    rw [hout1]
    exact hpd
  have e2 : st2 =
      lineItemsFinish ⟨["order_id", "quantity", "price", "product_id"],
        liRows (fun c => c) ts2 0⟩ st1 :=
    clean_operations_line_item_reduces ts2 f2 st1 pdim h2a h2b hread1
  have hb2 : st2.buffer = [lineItemOut ts1, lineItemOut ts2] := by
    rw [e2, lineItemsFinish_buffer, liCleanDF_eq ts2 hnd2, hb1, hbuf]
    rfl
  have hlen1 : (lineItemOut ts1).rows.length = ts1.length :=
    liRows_length _ ts1 0
  have hlen2 : (lineItemOut ts2).rows.length = ts2.length :=
    liRows_length _ ts2 0
  have hpid1 : (lineItemOut ts1).colVals "product_id" = synthIds ts1 0 := by
    show ((lineItemOut ts1).rows.map (fun r => r.getD 3 none)) = synthIds ts1 0
    exact liRows_getD_three _ ts1 0
  have hpid2 : (lineItemOut ts2).colVals "product_id" = synthIds ts2 0 := by
    show ((lineItemOut ts2).rows.map (fun r => r.getD 3 none)) = synthIds ts2 0
    exact liRows_getD_three _ ts2 0
  have hcols : unionCols ([lineItemOut ts1, lineItemOut ts2].map
      (fun d => d.cols)) = ["order_id", "quantity", "price", "product_id"] :=
    rfl
  have hpart1 : (lineItemOut ts1).rows.map (fun r =>
      List.map ((lineItemOut ts1).cell r)
        ["order_id", "quantity", "price", "product_id"])
      = (lineItemOut ts1).rows := by
    show ((lineItemOut ts1).rows.map (fun r =>
      [r.getD 0 none, r.getD 1 none, r.getD 2 none, r.getD 3 none]))
      = (lineItemOut ts1).rows
    exact liRows_reassemble _ ts1 0
  have hpart2 : (lineItemOut ts2).rows.map (fun r =>
      List.map ((lineItemOut ts2).cell r)
        ["order_id", "quantity", "price", "product_id"])
      = (lineItemOut ts2).rows := by
    show ((lineItemOut ts2).rows.map (fun r =>
      [r.getD 0 none, r.getD 1 none, r.getD 2 none, r.getD 3 none]))
      = (lineItemOut ts2).rows
    exact liRows_reassemble _ ts2 0
  have hconcat : concatDFs [lineItemOut ts1, lineItemOut ts2]
      = ⟨["order_id", "quantity", "price", "product_id"],
         (lineItemOut ts1).rows ++ (lineItemOut ts2).rows⟩ := by
    simp only [concatDFs]
    rw [hcols]
    simp only [List.flatMap_cons, List.flatMap_nil, List.append_nil]
    rw [hpart1, hpart2]
  have hflush : flushLineItems st2
      = st2.write "operations_line_items.parquet"
        (concatDFs st2.buffer) := by
    unfold flushLineItems
    rw [if_pos (show ¬ (st2.buffer = []) from by
      rw [hb2]; intro h; cases h)]
  have hro : (flushLineItems st2).readOutput "operations_line_items.parquet"
      = some ⟨["order_id", "quantity", "price", "product_id"],
          (lineItemOut ts1).rows ++ (lineItemOut ts2).rows⟩ := by
    rw [hflush, readOutput_write, hb2, hconcat]
  refine ⟨hb2, hlen1, hlen2, hpid1, hpid2, hro, ?_⟩
  rw [hro]
  show some ((lineItemOut ts1).rows ++ (lineItemOut ts2).rows).length = _
  rw [List.length_append, hlen1, hlen2]

end ShopZada

namespace ShopZada

/-- C3 witness: two concrete prices files (2 rows and 1 row) cleaned after a
business_product output exists; the flushed output stacks all 3 rows. -/
theorem clean_operations_line_item_buffering_witness :
    let ts1 : List (Val × Cell × Cell) :=
      [(Val.str "O1", some (Val.int 2), some (Val.int 5)),
       (Val.str "O2", some (Val.str "3 pcs"), some (Val.int 7))]
    let ts2 : List (Val × Cell × Cell) :=
      [(Val.str "O9", some (Val.int 1), some (Val.int 2))]
    let st0 := initState.write "business_product.parquet" ⟨["product_id"], []⟩
    let st1 := clean_operations (mkLineDF ts1)
      "operations_line_item_data_prices_1_bronze.parquet" st0
    let st2 := clean_operations (mkLineDF ts2)
      "operations_line_item_data_prices_2_bronze.parquet" st1
    st2.buffer = [lineItemOut ts1, lineItemOut ts2] ∧
    (lineItemOut ts1).rows.length = ts1.length ∧
    (lineItemOut ts2).rows.length = ts2.length ∧
    (lineItemOut ts1).colVals "product_id" = synthIds ts1 0 ∧
    (lineItemOut ts2).colVals "product_id" = synthIds ts2 0 ∧
    (flushLineItems st2).readOutput "operations_line_items.parquet"
      = some ⟨["order_id", "quantity", "price", "product_id"],
          (lineItemOut ts1).rows ++ (lineItemOut ts2).rows⟩ ∧
    ((flushLineItems st2).readOutput "operations_line_items.parquet").map
        (fun d => d.rows.length) = some (ts1.length + ts2.length) :=
  clean_operations_line_item_buffering
    [(Val.str "O1", some (Val.int 2), some (Val.int 5)),
     (Val.str "O2", some (Val.str "3 pcs"), some (Val.int 7))]
    [(Val.str "O9", some (Val.int 1), some (Val.int 2))]
    "operations_line_item_data_prices_1_bronze.parquet"
    "operations_line_item_data_prices_2_bronze.parquet"
    (initState.write "business_product.parquet" ⟨["product_id"], []⟩)
    ⟨["product_id"], []⟩
    (by decide) (by decide) (by decide) (by decide)
    (by decide) (by decide) rfl rfl

end ShopZada
